import Mathlib

/-!
Verification of the Major Tom grid module (`satchip/major_tom_grid.py`).

The grid's arithmetic is exact rational arithmetic except for two
transcendental quantities that only ever produce a *count* of divisions:
`num_divisions_in_hemisphere = ceil(pi * R / dist)` in `get_rows`, and
`num_divisions = ceil(2 * pi * R * cos(lat * pi / 180) / dist)` in
`subdivide_circumference`.  The embedding therefore works over `ℚ` and
abstracts those counts as parameters: `m : ℕ` for the pole-to-pole division
count and `nCols : ℚ → ℕ` for the per-latitude division count.  In the source
both counts are `ceil` of a positive float and hence always at least 1; where
a proof needs that fact it appears as the hypothesis `∀ q, 1 ≤ nCols q`.
Python strings are embedded as `List Char`; Python's negative-index
wrap-around (which `latlon2rowcol` exercises via `searchsorted(...) - 1`)
is modelled explicitly by `pyGet`.
-/

set_option autoImplicit false
set_option maxHeartbeats 1000000
set_option maxRecDepth 8000

/-- Python list/NumPy indexing `l[i]` for an `int` index: a negative index
wraps around from the end; an index out of `[-len l, len l)` is an
`IndexError`, modelled as `none`. -/
def pyGet {α : Type} (l : List α) (i : ℤ) : Option α :=
  if h : 0 ≤ i ∧ i < (l.length : ℤ) then
    some (l.get ⟨i.toNat, by omega⟩)
  else if h2 : -(l.length : ℤ) ≤ i ∧ i < 0 then
    some (l.get ⟨(i + (l.length : ℤ)).toNat, by omega⟩)
  else
    none

/-- A `for`-loop that carries a running index (the source's `r_idx` / `c_idx`
counters), producing `f i a` for each element. -/
def mapIdx {α β : Type} (f : ℕ → α → β) : ℕ → List α → List β
  | _, [] => []
  | i, a :: t => f i a :: mapIdx f (i + 1) t

/-- Index of the first element satisfying `p`
(`np.where(cond)[0][0]` is `firstIdx`, with `none` for the IndexError on an
empty match list). -/
def firstIdx {α : Type} (p : α → Bool) : List α → Option ℕ
  | [] => none
  | a :: t => if p a then some 0 else (firstIdx p t).map (· + 1)

/-! ### Decimal strings: Python `str` on naturals and `int` on digit strings -/

/-- The character of a decimal digit. -/
def digitCh (d : ℕ) : Char := Char.ofNat (48 + d)

/-- The digit of a decimal digit character. -/
def chDigit (c : Char) : ℕ := c.toNat - 48

/-- Is this character a decimal digit? -/
def isDigitCh (c : Char) : Bool := decide (48 ≤ c.toNat) && decide (c.toNat ≤ 57)

/-- Most-significant-first decimal digits of `n`, with `fuel` bounding the
recursion depth (any `fuel > n` is enough). -/
def toDigitsAux : ℕ → ℕ → List Char
  | 0, _ => []
  | fuel + 1, n => if n < 10 then [digitCh n] else toDigitsAux fuel (n / 10) ++ [digitCh (n % 10)]

/-- Python `str(n)` for a natural number: decimal, no leading zeros,
`"0"` for zero. -/
def pyStrNat (n : ℕ) : List Char := toDigitsAux (n + 1) n

/-- Python `int(s)` restricted to the strings that actually occur here
(nonempty, all decimal digits); anything else raises, modelled as `none`. -/
def pyInt (s : List Char) : Option ℕ :=
  if s ≠ [] ∧ s.all isDigitCh = true then
    some (s.foldl (fun a c => 10 * a + chDigit c) 0)
  else none

/-! #### Round-trip of `pyStrNat` and `pyInt` -/

theorem chDigit_digitCh {d : ℕ} (hd : d < 10) : chDigit (digitCh d) = d := by
  interval_cases d <;> rfl

theorem isDigitCh_digitCh {d : ℕ} (hd : d < 10) : isDigitCh (digitCh d) = true := by
  interval_cases d <;> rfl

theorem toDigitsAux_all_digits : ∀ fuel n : ℕ, (toDigitsAux fuel n).all isDigitCh = true := by
  intro fuel
  induction fuel with
  | zero => intro n; rfl
  | succ f ih =>
    intro n
    by_cases h : n < 10
    · simp [toDigitsAux, h, isDigitCh_digitCh]
    · have h10 : n % 10 < 10 := Nat.mod_lt _ (by omega)
      simp [toDigitsAux, h, List.all_append, ih, isDigitCh_digitCh h10]

theorem toDigitsAux_ne_nil : ∀ (fuel n : ℕ), toDigitsAux (fuel + 1) n ≠ [] := by
  intro fuel n
  by_cases h : n < 10 <;> simp [toDigitsAux, h]

theorem toDigitsAux_foldl :
    ∀ fuel n a : ℕ, n < fuel →
      (toDigitsAux fuel n).foldl (fun x c => 10 * x + chDigit c) a
        = a * 10 ^ (toDigitsAux fuel n).length + n := by
  intro fuel
  induction fuel with
  | zero => intro n a h; omega
  | succ f ih =>
    intro n a h
    by_cases h10 : n < 10
    · simp [toDigitsAux, h10, chDigit_digitCh h10]
      omega
    · have hdiv : n / 10 < f := by omega
      have hmod : n % 10 < 10 := Nat.mod_lt _ (by omega)
      simp only [toDigitsAux, h10, if_false, List.foldl_append, List.length_append,
        List.foldl_cons, List.foldl_nil, List.length_cons, List.length_nil]
      rw [ih (n / 10) a hdiv, chDigit_digitCh hmod]
      have h1 : 10 ^ ((toDigitsAux f (n / 10)).length + (0 + 1))
          = 10 ^ (toDigitsAux f (n / 10)).length * 10 := by ring
      rw [h1]
      have h2 : a * (10 ^ (toDigitsAux f (n / 10)).length * 10)
          = 10 * (a * 10 ^ (toDigitsAux f (n / 10)).length) := by ring
      rw [h2]
      omega

theorem pyInt_pyStrNat (n : ℕ) : pyInt (pyStrNat n) = some n := by
  unfold pyInt pyStrNat
  rw [if_pos ⟨toDigitsAux_ne_nil n n, toDigitsAux_all_digits (n + 1) n⟩]
  rw [toDigitsAux_foldl (n + 1) n 0 (by omega)]
  simp

theorem pyStrNat_injective : Function.Injective pyStrNat := by
  intro a b h
  have := pyInt_pyStrNat a
  rw [h, pyInt_pyStrNat b] at this
  exact (Option.some_injective _ this).symm

/-! ### Offset labels: `f'{k}U'`, `f'{k}D'`, `f'{k}R'`, `f'{k}L'` -/

/-- The labels the source assigns around a "zeroth" index `z` in a ladder of
`n` positions: position `i < z` gets `f'{z-i}{neg}'`, position `i ≥ z` gets
`f'{i-z}{pos}'` (rows with `'D'`/`'U'` around the zeroth row, columns with
`'L'`/`'R'` around the zeroth column). -/
def mkLabels (neg pos : Char) (z n : ℕ) : List (List Char) :=
  (List.range n).map (fun i =>
    if i < z then pyStrNat (z - i) ++ [neg] else pyStrNat (i - z) ++ [pos])

theorem append_singleton_inj {α : Type} {xs ys : List α} {c d : α}
    (h : xs ++ [c] = ys ++ [d]) : xs = ys ∧ c = d := by
  have h2 := congrArg List.reverse h
  simp at h2
  exact ⟨h2.2, h2.1⟩

theorem mkLabels_get {neg pos : Char} {z n i : ℕ} (hi : i < n) :
    (mkLabels neg pos z n).get ⟨i, by simpa [mkLabels] using hi⟩
      = if i < z then pyStrNat (z - i) ++ [neg] else pyStrNat (i - z) ++ [pos] := by
  simp [mkLabels]

theorem length_mkLabels (neg pos : Char) (z n : ℕ) : (mkLabels neg pos z n).length = n := by
  simp [mkLabels]

theorem mkLabels_nodup {neg pos : Char} (hne : neg ≠ pos) (z n : ℕ) :
    (mkLabels neg pos z n).Nodup := by
  unfold mkLabels
  refine List.Nodup.map_on ?_ (List.nodup_range n)
  intro i hi0 j hj0 hij
  simp only [List.mem_range] at hi0 hj0
  rcases Nat.lt_or_ge i z with hi | hi <;> rcases Nat.lt_or_ge j z with hj | hj
  · rw [if_pos hi, if_pos hj] at hij
    obtain ⟨h1, -⟩ := append_singleton_inj hij
    have := pyStrNat_injective h1
    omega
  · rw [if_pos hi, if_neg (by omega)] at hij
    exact absurd (append_singleton_inj hij).2 hne
  · rw [if_neg (by omega), if_pos hj] at hij
    exact absurd (append_singleton_inj hij).2 (Ne.symm hne)
  · rw [if_neg (by omega), if_neg (by omega)] at hij
    obtain ⟨h1, -⟩ := append_singleton_inj hij
    have := pyStrNat_injective h1
    omega

/-! ### The embedding of `satchip/major_tom_grid.py` -/

/-- NumPy `np.mod x y` for `y > 0`: the remainder with the divisor's sign,
`x - y * floor (x / y)`. -/
def npMod (x y : ℚ) : ℚ := x - y * ⌊x / y⌋

/-- `np.searchsorted(l, v)` (default `side='left'`) on a sorted array: the
leftmost insertion index keeping the array sorted, i.e. the number of
elements strictly below `v`. -/
def searchsorted (l : List ℚ) (v : ℚ) : ℕ := l.countP (fun x => decide (x < v))

/-- One row of the grid's point table (`self.points` carries exactly these
columns plus the derived `name`/`epsg` strings). -/
structure GridPoint where
  row : List Char
  col : List Char
  row_idx : ℕ
  col_idx : ℕ
  lat : ℚ
  lon : ℚ
  utm_zone : ℤ
deriving DecidableEq, Repr

/-- The grid as `MajorTomGrid.__init__` leaves it: `self.rows`, `self.lats`,
`self.points_by_row`, `self.points`. -/
structure MajorTomGrid where
  rows : List (List Char)
  lats : List ℚ
  points_by_row : List (List GridPoint)
  points : List GridPoint
deriving DecidableEq, Repr

/-- `np.linspace(-90, 90, m+1)[:-1]` followed by `np.mod(·, 180) - 90`
(`get_rows` lines 33-34), with `m` the hemisphere division count
`ceil(pi * R / dist)` abstracted as a parameter. -/
def rawLatitudes (m : ℕ) : List ℚ :=
  (List.range m).map (fun (i : ℕ) => npMod (-90 + 180 * (i : ℚ) / (m : ℚ)) 180 - 90)

/-- `get_rows`: sort the normalized latitudes, locate the zeroth row with
`np.searchsorted(latitudes, 0)`, label with `{offset}U` / `{offset}D`, and
keep only the rows whose latitude falls in `latR` (inclusive mask
`(lats >= lo) * (lats <= hi)`).  Returned as the list of retained
`(row_label, latitude)` pairs; `get_rows` returns the two projections. -/
def retainedRows (m : ℕ) (latR : ℚ × ℚ) : List (List Char × ℚ) :=
  let latitudes := List.insertionSort (· ≤ ·) (rawLatitudes m)
  let z := searchsorted latitudes 0
  let rows := mkLabels 'D' 'U' z latitudes.length
  (rows.zip latitudes).filter (fun p => decide (latR.1 ≤ p.2) && decide (p.2 ≤ latR.2))

/-- `get_rows`'s return value `(rows, latitudes)` after range filtering. -/
def get_rows (m : ℕ) (latR : ℚ × ℚ) : List (List Char) × List ℚ :=
  ((retainedRows m latR).map Prod.fst, (retainedRows m latR).map Prod.snd)

/-- `np.linspace(-180, 180, n+1)[:-1]` followed by `np.mod(·, 360) - 180`
(`subdivide_circumference` lines 67-68), with `n` the per-latitude division
count `ceil(circumference / dist)` abstracted as a parameter. -/
def rawLongitudes (n : ℕ) : List ℚ :=
  (List.range n).map (fun (k : ℕ) => npMod (-180 + 360 * (k : ℚ) / (n : ℚ)) 360 - 180)

/-- `subdivide_circumference(lat)` without `return_cols`: the sorted
normalized longitudes. -/
def subdivide_circumference (n : ℕ) : List ℚ :=
  List.insertionSort (· ≤ ·) (rawLongitudes n)

/-- `subdivide_circumference(lat, return_cols=True)`: additionally locate the
zeroth column `np.where(longitudes == 0)[0][0]` (an `IndexError`, modelled as
`none`, if no longitude is exactly `0`) and label with `{offset}R` /
`{offset}L`. -/
def subdivide_cols (n : ℕ) : Option (List (List Char) × List ℚ) :=
  let longitudes := subdivide_circumference n
  match firstIdx (fun x => decide (x = 0)) longitudes with
  | none => none
  | some z => some (mkLabels 'L' 'R' z longitudes.length, longitudes)

/-- `filter_longitude`: keep the columns whose longitude lies in `lonR`
(inclusive mask), on the zipped `(col_label, longitude)` pairs. -/
def filter_longitude (lonR : ℚ × ℚ) (pairs : List (List Char × ℚ)) : List (List Char × ℚ) :=
  pairs.filter (fun p => decide (lonR.1 ≤ p.2) && decide (p.2 ≤ lonR.2))

/-- `zone_number = (math.floor((longitude + 180) / 6)) % 60 + 1`; Python's
`%` on a positive divisor is the Euclidean remainder, `Int.emod`. -/
def utmZoneFormula (lon : ℚ) : ℤ := ⌊(lon + 180) / 6⌋ % 60 + 1

/-- The zone number after the hard-coded Norway/Svalbard exceptions
(`get_utm_zone_from_latlng` lines 241-251). -/
def utmZoneNumber (lat lon : ℚ) : ℤ :=
  if 56 ≤ lat ∧ lat < 64 ∧ 3 ≤ lon ∧ lon < 12 then 32
  else if 72 ≤ lat ∧ lat < 84 then
    if 0 ≤ lon ∧ lon < 9 then 31
    else if 9 ≤ lon ∧ lon < 21 then 33
    else if 21 ≤ lon ∧ lon < 33 then 35
    else if 33 ≤ lon ∧ lon < 42 then 37
    else utmZoneFormula lon
  else utmZoneFormula lon

/-- The source builds `epsg_code = f'326{zone:02d}'` (or `327…` south) and
checks it against `re.match(r'32[6-7](0[1-9]|[1-5][0-9]|60)', …)`.  For the
two-digit rendering `{zone:02d}` of any `0 ≤ zone ≤ 99` that regex accepts
the string exactly when `1 ≤ zone ≤ 60` (`0[1-9]` = 01-09, `[1-5][0-9]` =
10-59, `60` = 60), which is how the check is modelled here. -/
def epsgPatternOk (z : ℤ) : Bool := decide (1 ≤ z) && decide (z ≤ 60)

/-- `get_utm_zone_from_latlng([lat, lon])`: the numeric EPSG code
`326{zone:02d}` / `327{zone:02d}` (equal to `32600 + zone` resp.
`32700 + zone` for two-digit zones), or the `ValueError` for a code failing
the pattern check. -/
def get_utm_zone_from_latlng (lat lon : ℚ) : Except String ℤ :=
  let zn := utmZoneNumber lat lon
  if epsgPatternOk zn then Except.ok ((if lat < 0 then 32700 else 32600) + zn)
  else Except.error "out of bound latlng resulted in incorrect EPSG code for the point"

/-- The per-cell UTM assignment in `get_points` (lines 107-114): direct for
`'bottomleft'`, offset by half the spacing for `'center'` (with the float
`math.cos(x * pi / 180)` abstracted as the parameter `cosd`), and a
`ValueError` for any other `utm_definition`. -/
def cellUtm (mode : String) (dist : ℚ) (cosd : ℚ → ℚ) (lat lon : ℚ) : Except String ℤ :=
  if mode = "bottomleft" then get_utm_zone_from_latlng lat lon
  else if mode = "center" then
    let center_lat := lat + 1000 * dist / 2 / 111120
    let center_lon := lon + 1000 * dist / 2 / (111120 * cosd center_lat)
    get_utm_zone_from_latlng center_lat center_lon
  else Except.error ("Invalid utm_definition " ++ mode)

/-- The inner loop of `get_points`: one `GridPoint` per retained column of
the row, with `c_idx` counting from `ci`; the first failing UTM assignment
(or the unknown-mode `ValueError`) aborts the whole construction. -/
def buildCells (mode : String) (dist : ℚ) (cosd : ℚ → ℚ) (r : List Char) (lat : ℚ)
    (ri : ℕ) : ℕ → List (List Char × ℚ) → Except String (List GridPoint)
  | _, [] => Except.ok []
  | ci, (c, lon) :: rest =>
    match cellUtm mode dist cosd lat lon with
    | Except.error e => Except.error e
    | Except.ok zone =>
      match buildCells mode dist cosd r lat ri (ci + 1) rest with
      | Except.error e => Except.error e
      | Except.ok cells => Except.ok (⟨r, c, ri, ci, lat, lon, zone⟩ :: cells)

/-- The outer loop of `get_points`: one list of cells per retained row, with
`r_idx` counting from `ri`; each row subdivides its circumference
(`IndexError` if the zeroth column is missing) and filters to `lonR`. -/
def buildRows (mode : String) (dist : ℚ) (cosd : ℚ → ℚ) (nCols : ℚ → ℕ) (lonR : ℚ × ℚ) :
    ℕ → List (List Char × ℚ) → Except String (List (List GridPoint))
  | _, [] => Except.ok []
  | ri, (r, lat) :: rest =>
    match subdivide_cols (nCols lat) with
    | none => Except.error "IndexError: index 0 is out of bounds"
    | some (cols, lons) =>
      match buildCells mode dist cosd r lat ri 0 (filter_longitude lonR (cols.zip lons)) with
      | Except.error e => Except.error e
      | Except.ok cells =>
        match buildRows mode dist cosd nCols lonR (ri + 1) rest with
        | Except.error e => Except.error e
        | Except.ok rows => Except.ok (cells :: rows)

/-- `get_points`: build every row, then `pd.concat(points_by_row)` — which
raises `ValueError: No objects to concatenate` when there are no rows at all
(concatenating empty frames of existing rows succeeds). -/
def get_points (m : ℕ) (nCols : ℚ → ℕ) (latR lonR : ℚ × ℚ) (mode : String)
    (dist : ℚ) (cosd : ℚ → ℚ) : Except String (List (List GridPoint) × List GridPoint) :=
  match buildRows mode dist cosd nCols lonR 0 (retainedRows m latR) with
  | Except.error e => Except.error e
  | Except.ok pbr =>
    if pbr.isEmpty then Except.error "No objects to concatenate"
    else Except.ok (pbr, pbr.flatten)

/-- `MajorTomGrid.__init__`: `get_rows` then `get_points`; no validation of
any constructor argument happens before or besides these two calls. -/
def mkGrid (m : ℕ) (nCols : ℚ → ℕ) (latR lonR : ℚ × ℚ) (mode : String)
    (dist : ℚ) (cosd : ℚ → ℚ) : Except String MajorTomGrid :=
  match get_points m nCols latR lonR mode dist cosd with
  | Except.error e => Except.error e
  | Except.ok pp => Except.ok ⟨(get_rows m latR).1, (get_rows m latR).2, pp.1, pp.2⟩

/-- `latlon2rowcol` for one query point (the source vectorizes this map over
the query arrays elementwise): `rows = np.searchsorted(self.lats, lats) - 1`,
`self.points_by_row[row]` (Python negative indices wrap around),
`iloc[np.searchsorted(x, lon) - 1]` likewise, and finally `self.rows[rows]`. -/
def latlon2rowcol1 (g : MajorTomGrid) (lat lon : ℚ) : Option (List Char × List Char) :=
  let ri : ℤ := (searchsorted g.lats lat : ℤ) - 1
  match pyGet g.points_by_row ri with
  | none => none
  | some poss =>
    let ci : ℤ := (searchsorted (poss.map GridPoint.lon) lon : ℤ) - 1
    match pyGet poss ci with
    | none => none
    | some cell =>
      match pyGet g.rows ri with
      | none => none
      | some r => some (r, cell.col)

/-- The `integer=True` decoding of a label (`latlon2rowcol` lines 171-173):
strip the last character, parse the rest as an int, and negate unless the
last character is `pos` (`'U'` for rows, `'R'` for columns). -/
def decodeLabelInt (pos : Char) (el : List Char) : Option ℤ :=
  match pyInt el.dropLast with
  | none => none
  | some n => some (if el.getLast? = some pos then (n : ℤ) else -(n : ℤ))

/-- Modelled from the spec: re-encoding a signed integer offset "under the
grid's labeling scheme" (the scheme of `get_rows` lines 43-44 /
`subdivide_circumference` lines 74-75: non-negative offsets take the
positive-direction suffix, negative offsets their absolute value with the
negative-direction suffix).  The source has no explicit re-encoder; this is
the spec's round-trip partner of `decodeLabelInt`. -/
def reEncodeLabel (pos neg : Char) (z : ℤ) : List Char :=
  if 0 ≤ z then pyStrNat z.toNat ++ [pos] else pyStrNat (-z).toNat ++ [neg]

/-- `rowcol2latlon` for one `(row_label, col_label)` pair: the first matching
table row's geometry (`(lat, lon)` from `point.y`/`point.x`); `.values[0]`
on an empty selection is an `IndexError`, modelled as `none`. -/
def rowcol2latlon1 (g : MajorTomGrid) (r c : List Char) : Option (ℚ × ℚ) :=
  match g.points.find? (fun p => decide (p.row = r) && decide (p.col = c)) with
  | none => none
  | some p => some (p.lat, p.lon)

/-- `get_bounded_footprint`: the buffered bounding polygon of a cell, as its
corner list `[(new_left, new_bottom), (new_left, new_top),
(new_right, new_top), (new_right, new_bottom)]`; `none` for an
`IndexError` (all the indexings wrap Python-style via `pyGet`). -/
def get_bounded_footprint (g : MajorTomGrid) (point : GridPoint) (buffer_ratio : ℚ) :
    Option (List (ℚ × ℚ)) :=
  let bottom := point.lat
  let left := point.lon
  let row_idx := point.row_idx
  let col_idx := point.col_idx
  let topO : Option ℚ :=
    if (row_idx + 1 : ℕ) ≥ g.lats.length then
      match pyGet g.lats (row_idx : ℤ), pyGet g.lats ((row_idx : ℤ) - 1) with
      | some a, some b => some (a + (a - b))
      | _, _ => none
    else pyGet g.lats ((row_idx : ℤ) + 1)
  match topO with
  | none => none
  | some top =>
    match pyGet g.points_by_row (row_idx : ℤ) with
    | none => none
    | some rowPts =>
      let max_col : ℤ := (rowPts.length : ℤ) - 1
      let rightO : Option ℚ :=
        if (col_idx : ℤ) + 1 > max_col then
          match pyGet rowPts (col_idx : ℤ), pyGet rowPts ((col_idx : ℤ) - 1) with
          | some p1, some p0 => some (p1.lon + (p1.lon - p0.lon))
          | _, _ => none
        else (pyGet rowPts ((col_idx : ℤ) + 1)).map GridPoint.lon
      match rightO with
      | none => none
      | some right =>
        let width := right - left
        let height := top - bottom
        let buffer_horizontal := width * buffer_ratio
        let buffer_vertical := height * buffer_ratio
        let new_left := left - buffer_horizontal
        let new_right := right + buffer_horizontal
        let new_bottom := bottom - buffer_vertical
        let new_top := top + buffer_vertical
        some [(new_left, new_bottom), (new_left, new_top),
              (new_right, new_top), (new_right, new_bottom)]

/-! ### Basic lemmas about the helpers -/

theorem pyGet_nonneg {α : Type} (l : List α) (i : ℤ) (h0 : 0 ≤ i) (h1 : i < (l.length : ℤ)) :
    pyGet l i = some (l.get ⟨i.toNat, by omega⟩) := by
  unfold pyGet
  rw [dif_pos ⟨h0, h1⟩]

theorem pyGet_neg {α : Type} (l : List α) (i : ℤ) (h0 : -(l.length : ℤ) ≤ i) (h1 : i < 0) :
    pyGet l i = some (l.get ⟨(i + (l.length : ℤ)).toNat, by omega⟩) := by
  unfold pyGet
  rw [dif_neg (by omega), dif_pos ⟨h0, h1⟩]

theorem pyGet_none {α : Type} (l : List α) (i : ℤ) (h : i < -(l.length : ℤ) ∨ (l.length : ℤ) ≤ i) :
    pyGet l i = none := by
  unfold pyGet
  rw [dif_neg (by omega), dif_neg (by omega)]

theorem length_mapIdx {α β : Type} (f : ℕ → α → β) :
    ∀ (s : ℕ) (l : List α), (mapIdx f s l).length = l.length := by
  intro s l
  induction l generalizing s with
  | nil => rfl
  | cons a t ih => simp [mapIdx, ih]

theorem mapIdx_get {α β : Type} (f : ℕ → α → β) :
    ∀ (s : ℕ) (l : List α) (i : ℕ) (h : i < l.length),
      (mapIdx f s l).get ⟨i, by rw [length_mapIdx]; exact h⟩ = f (s + i) (l.get ⟨i, h⟩) := by
  intro s l
  induction l generalizing s with
  | nil => intro i h; simp at h
  | cons a t ih =>
    intro i h
    cases i with
    | zero => simp [mapIdx]
    | succ k =>
      have hk : k < t.length := by simpa using h
      have := ih (s + 1) k hk
      simpa [mapIdx, Nat.add_assoc, Nat.add_comm 1 k] using this

theorem mapIdx_mem {α β : Type} (f : ℕ → α → β) :
    ∀ (s : ℕ) (l : List α) (p : β), p ∈ mapIdx f s l →
      ∃ (i : ℕ) (h : i < l.length), p = f (s + i) (l.get ⟨i, h⟩) := by
  intro s l
  induction l generalizing s with
  | nil => intro p hp; simp [mapIdx] at hp
  | cons a t ih =>
    intro p hp
    simp only [mapIdx, List.mem_cons] at hp
    rcases hp with hp | hp
    · exact ⟨0, by simp, by simpa using hp⟩
    · obtain ⟨i, hi, hpe⟩ := ih (s + 1) p hp
      exact ⟨i + 1, by simpa using hi, by simpa [Nat.add_assoc, Nat.add_comm 1 i] using hpe⟩

theorem firstIdx_some {α : Type} (p : α → Bool) :
    ∀ {l : List α} {z : ℕ}, firstIdx p l = some z →
      ∃ h : z < l.length, p (l.get ⟨z, h⟩) = true := by
  intro l
  induction l with
  | nil => intro z h; simp [firstIdx] at h
  | cons a t ih =>
    intro z h
    by_cases hpa : p a
    · simp [firstIdx, hpa] at h
      subst h
      exact ⟨by simp, by simpa using hpa⟩
    · simp [firstIdx, hpa] at h
      obtain ⟨w, hw, rfl⟩ := h
      obtain ⟨hlt, hget⟩ := ih hw
      exact ⟨by simpa using hlt, by simpa using hget⟩

theorem firstIdx_isSome_of_mem {α : Type} (p : α → Bool) {l : List α} {a : α}
    (ha : a ∈ l) (hpa : p a = true) : (firstIdx p l).isSome = true := by
  induction l with
  | nil => simp at ha
  | cons b t ih =>
    by_cases hpb : p b
    · simp [firstIdx, hpb]
    · have hat : a ∈ t := by
        rcases List.mem_cons.mp ha with rfl | h
        · exact absurd hpa hpb
        · exact h
      simp only [firstIdx, hpb, if_false]
      have := ih hat
      cases hfi : firstIdx p t with
      | none => rw [hfi] at this; simp at this
      | some w => simp [hfi]

/-! ### The normalized ladders: `np.mod(linspace(..), 2H) - H` -/

theorem npMod_shift (H : ℚ) (hH : 0 < H) (m i : ℕ) (him : i < m) :
    npMod (-H + 2 * H * (i : ℚ) / (m : ℚ)) (2 * H) - H
      = if 2 * i < m then 2 * H * (i : ℚ) / (m : ℚ)
        else 2 * H * (i : ℚ) / (m : ℚ) - 2 * H := by
  have hm : 0 < m := by omega
  have hm0 : (0 : ℚ) < (m : ℚ) := by exact_mod_cast hm
  have hH0 : (2 * H : ℚ) ≠ 0 := by positivity
  have hq : (-H + 2 * H * (i : ℚ) / (m : ℚ)) / (2 * H) = -(1 / 2) + (i : ℚ) / (m : ℚ) := by
    field_simp
    ring
  have hge : (0 : ℚ) ≤ (i : ℚ) / (m : ℚ) := by positivity
  have hlt1 : (i : ℚ) / (m : ℚ) < 1 := by
    rw [div_lt_one hm0]
    exact_mod_cast him
  by_cases hc : 2 * i < m
  · have hhalf : (i : ℚ) / (m : ℚ) < 1 / 2 := by
      rw [div_lt_iff hm0]
      have h2 : ((2 * i : ℕ) : ℚ) < (m : ℚ) := by exact_mod_cast hc
      push_cast at h2
      linarith
    have hfl : ⌊(-H + 2 * H * (i : ℚ) / (m : ℚ)) / (2 * H)⌋ = -1 := by
      rw [hq]
      rw [Int.floor_eq_iff]
      constructor
      · push_cast
        linarith
      · push_cast
        linarith
    rw [if_pos hc]
    unfold npMod
    rw [hfl]
    push_cast
    ring
  · have hhalf : (1 : ℚ) / 2 ≤ (i : ℚ) / (m : ℚ) := by
      rw [le_div_iff hm0]
      have h2 : (m : ℚ) ≤ ((2 * i : ℕ) : ℚ) := by exact_mod_cast Nat.le_of_not_lt hc
      push_cast at h2
      linarith
    have hfl : ⌊(-H + 2 * H * (i : ℚ) / (m : ℚ)) / (2 * H)⌋ = 0 := by
      rw [hq]
      rw [Int.floor_eq_iff]
      constructor
      · push_cast
        linarith
      · push_cast
        linarith
    rw [if_neg hc]
    unfold npMod
    rw [hfl]
    push_cast
    ring

theorem rawLatitudes_val (m i : ℕ) (hi : i < m) :
    npMod (-90 + 180 * (i : ℚ) / (m : ℚ)) 180 - 90
      = if 2 * i < m then 180 * (i : ℚ) / (m : ℚ) else 180 * (i : ℚ) / (m : ℚ) - 180 := by
  have h := npMod_shift 90 (by norm_num) m i hi
  norm_num at h
  convert h using 2

theorem rawLongitudes_val (n k : ℕ) (hk : k < n) :
    npMod (-180 + 360 * (k : ℚ) / (n : ℚ)) 360 - 180
      = if 2 * k < n then 360 * (k : ℚ) / (n : ℚ) else 360 * (k : ℚ) / (n : ℚ) - 360 := by
  have h := npMod_shift 180 (by norm_num) n k hk
  norm_num at h
  convert h using 2

theorem branchVal_inj (C : ℚ) (hC : 0 < C) (m i j : ℕ) (hi : i < m) (hj : j < m)
    (h : (if 2 * i < m then C * (i : ℚ) / (m : ℚ) else C * (i : ℚ) / (m : ℚ) - C)
       = (if 2 * j < m then C * (j : ℚ) / (m : ℚ) else C * (j : ℚ) / (m : ℚ) - C)) :
    i = j := by
  have hm0 : (0 : ℚ) < (m : ℚ) := by
    have : 0 < m := by omega
    exact_mod_cast this
  have ei0 : (0 : ℚ) ≤ C * (i : ℚ) / (m : ℚ) := by positivity
  have ej0 : (0 : ℚ) ≤ C * (j : ℚ) / (m : ℚ) := by positivity
  have eiC : C * (i : ℚ) / (m : ℚ) < C := by
    rw [div_lt_iff hm0]
    have : (i : ℚ) < (m : ℚ) := by exact_mod_cast hi
    nlinarith
  have ejC : C * (j : ℚ) / (m : ℚ) < C := by
    rw [div_lt_iff hm0]
    have : (j : ℚ) < (m : ℚ) := by exact_mod_cast hj
    nlinarith
  have hCne : C ≠ 0 := by positivity
  have key : C * (i : ℚ) / (m : ℚ) = C * (j : ℚ) / (m : ℚ) → i = j := by
    intro he
    have h2 : C * (i : ℚ) / (m : ℚ) * (m : ℚ) = C * (j : ℚ) / (m : ℚ) * (m : ℚ) := by
      rw [he]
    rw [div_mul_cancel₀ _ (ne_of_gt hm0), div_mul_cancel₀ _ (ne_of_gt hm0)] at h2
    have h3 : (i : ℚ) = (j : ℚ) := mul_left_cancel₀ hCne h2
    exact_mod_cast h3
  split_ifs at h with h1 h2 h2
  · exact key h
  · linarith
  · linarith
  · exact key (by linarith)

theorem rawLatitudes_nodup (m : ℕ) : (rawLatitudes m).Nodup := by
  have key : ∀ i ∈ List.range m, ∀ j ∈ List.range m,
      npMod (-90 + 180 * (i : ℚ) / (m : ℚ)) 180 - 90
        = npMod (-90 + 180 * (j : ℚ) / (m : ℚ)) 180 - 90 → i = j := by
    intro i hi j hj hij
    simp only [List.mem_range] at hi hj
    rw [rawLatitudes_val m i hi, rawLatitudes_val m j hj] at hij
    exact branchVal_inj 180 (by norm_num) m i j hi hj hij
  unfold rawLatitudes
  exact @List.Nodup.map_on ℕ ℚ (List.range m)
    (fun i => npMod (-90 + 180 * (i : ℚ) / (m : ℚ)) 180 - 90) key (List.nodup_range m)

theorem rawLongitudes_nodup (n : ℕ) : (rawLongitudes n).Nodup := by
  have key : ∀ i ∈ List.range n, ∀ j ∈ List.range n,
      npMod (-180 + 360 * (i : ℚ) / (n : ℚ)) 360 - 180
        = npMod (-180 + 360 * (j : ℚ) / (n : ℚ)) 360 - 180 → i = j := by
    intro i hi j hj hij
    simp only [List.mem_range] at hi hj
    rw [rawLongitudes_val n i hi, rawLongitudes_val n j hj] at hij
    exact branchVal_inj 360 (by norm_num) n i j hi hj hij
  unfold rawLongitudes
  exact @List.Nodup.map_on ℕ ℚ (List.range n)
    (fun k => npMod (-180 + 360 * (k : ℚ) / (n : ℚ)) 360 - 180) key (List.nodup_range n)

theorem zero_mem_rawLongitudes (n : ℕ) (hn : 1 ≤ n) : (0 : ℚ) ∈ rawLongitudes n := by
  have h0 : npMod (-180 + 360 * ((0 : ℕ) : ℚ) / (n : ℚ)) 360 - 180 = 0 := by
    rw [rawLongitudes_val n 0 (by omega), if_pos (by omega)]
    norm_num
  unfold rawLongitudes
  refine List.mem_map.mpr ⟨0, List.mem_range.mpr ?_, h0⟩
  omega

/-! ### Sortedness facts -/

theorem sorted_le_of_insertionSort (l : List ℚ) :
    List.Sorted (· ≤ ·) (List.insertionSort (· ≤ ·) l) :=
  List.sorted_insertionSort (· ≤ ·) l

theorem sorted_lt_of_sorted_nodup {l : List ℚ} (hs : List.Sorted (· ≤ ·) l)
    (hn : l.Nodup) : List.Sorted (· < ·) l :=
  List.Sorted.lt_of_le hs hn

theorem insertionSort_nodup {l : List ℚ} (hn : l.Nodup) :
    (List.insertionSort (· ≤ ·) l).Nodup :=
  (List.perm_insertionSort (· ≤ ·) l).nodup_iff.mpr hn

theorem mem_insertionSort {l : List ℚ} {x : ℚ} :
    x ∈ List.insertionSort (· ≤ ·) l ↔ x ∈ l :=
  (List.perm_insertionSort (· ≤ ·) l).mem_iff

/-! ### The `searchsorted` floor-lookup specification -/

theorem searchsorted_spec {l : List ℚ} (hs : List.Sorted (· ≤ ·) l) (v : ℚ) :
    ∀ (i : ℕ) (h : i < l.length), (l.get ⟨i, h⟩ < v ↔ i < searchsorted l v) := by
  induction l with
  | nil => intro i h; simp at h
  | cons a t ih =>
    rw [List.sorted_cons] at hs
    obtain ⟨ha, ht⟩ := hs
    intro i h
    unfold searchsorted
    rw [List.countP_cons]
    by_cases hav : a < v
    · rw [decide_eq_true hav, if_pos rfl]
      cases i with
      | zero =>
        simp only [List.get]
        constructor
        · intro _; omega
        · intro _; exact hav
      | succ k =>
        have hk : k < t.length := by simpa using h
        have hih := ih ht k hk
        unfold searchsorted at hih
        rw [List.get_cons_succ]
        constructor
        · intro hlt
          have := hih.mp hlt
          omega
        · intro hlt
          exact hih.mpr (by omega)
    · have hz : t.countP (fun x => decide (x < v)) = 0 := by
        rw [List.countP_eq_zero]
        intro b hb
        simp only [decide_eq_true_eq]
        intro hbv
        exact hav (lt_of_le_of_lt (ha b hb) hbv)
      rw [decide_eq_false hav, if_neg (by simp), hz]
      cases i with
      | zero =>
        simp only [List.get]
        constructor
        · intro hva; exact absurd hva hav
        · intro hva; omega
      | succ k =>
        have hk : k < t.length := by simpa using h
        rw [List.get_cons_succ]
        constructor
        · intro hlt
          exact absurd (lt_of_le_of_lt (ha _ (List.get_mem t k _)) hlt) hav
        · intro hlt; omega

theorem searchsorted_le_length (l : List ℚ) (v : ℚ) : searchsorted l v ≤ l.length :=
  List.countP_le_length _

theorem searchsorted_pos_iff (l : List ℚ) (v : ℚ) :
    0 < searchsorted l v ↔ ∃ x ∈ l, x < v := by
  unfold searchsorted
  rw [List.countP_pos]
  simp

theorem searchsorted_greatest {l : List ℚ} (hs : List.Sorted (· ≤ ·) l) {v : ℚ}
    (hpos : 0 < searchsorted l v) :
    ∃ h : searchsorted l v - 1 < l.length,
      l.get ⟨searchsorted l v - 1, h⟩ < v ∧
        ∀ x ∈ l, x < v → x ≤ l.get ⟨searchsorted l v - 1, h⟩ := by
  have hle := searchsorted_le_length l v
  have hlen : searchsorted l v - 1 < l.length := by omega
  refine ⟨hlen, ?_, ?_⟩
  · exact (searchsorted_spec hs v _ hlen).mpr (by omega)
  · intro x hx hxv
    obtain ⟨i, hi⟩ := List.get_of_mem hx
    obtain ⟨iv, hiv⟩ := i
    rw [← hi] at hxv ⊢
    have hic : iv < searchsorted l v := (searchsorted_spec hs v iv hiv).mp hxv
    have : iv ≤ searchsorted l v - 1 := by omega
    exact List.Sorted.rel_get_of_le hs (by simpa using this)

/-! ### The UTM computation never fails -/

theorem utmZoneFormula_bounds (lon : ℚ) :
    1 ≤ utmZoneFormula lon ∧ utmZoneFormula lon ≤ 60 := by
  unfold utmZoneFormula
  have h1 : 0 ≤ ⌊(lon + 180) / 6⌋ % 60 := Int.emod_nonneg _ (by norm_num)
  have h2 : ⌊(lon + 180) / 6⌋ % 60 < 60 := Int.emod_lt_of_pos _ (by norm_num)
  omega

theorem utmZoneNumber_bounds (lat lon : ℚ) :
    1 ≤ utmZoneNumber lat lon ∧ utmZoneNumber lat lon ≤ 60 := by
  unfold utmZoneNumber
  have h := utmZoneFormula_bounds lon
  split_ifs <;> omega

/-- The abbreviation for the EPSG code the bottom-left assignment stores for
an anchor point (`get_utm_zone_from_latlng` always reaches its `return`). -/
def utmEpsgBL (lat lon : ℚ) : ℤ :=
  (if lat < 0 then 32700 else 32600) + utmZoneNumber lat lon

theorem get_utm_ok (lat lon : ℚ) :
    get_utm_zone_from_latlng lat lon = Except.ok (utmEpsgBL lat lon) := by
  unfold get_utm_zone_from_latlng utmEpsgBL epsgPatternOk
  have h := utmZoneNumber_bounds lat lon
  rw [if_pos]
  simp only [Bool.and_eq_true, decide_eq_true_eq]
  omega

/-! ### The explicit shape of a successfully built bottom-left grid -/

/-- The cell `get_points` appends for retained column `p` of the row
labelled `r` at latitude `lat` (bottom-left mode). -/
def cellOf (r : List Char) (lat : ℚ) (ri ci : ℕ) (p : List Char × ℚ) : GridPoint :=
  ⟨r, p.1, ri, ci, lat, p.2, utmEpsgBL lat p.2⟩

/-- The retained `(col_label, longitude)` pairs of the row at latitude `lat`
(empty when the zeroth-column search would fail, which `subdivide_cols_ok`
rules out for `nCols lat ≥ 1`). -/
def rowPairs (nCols : ℚ → ℕ) (lonR : ℚ × ℚ) (lat : ℚ) : List (List Char × ℚ) :=
  match subdivide_cols (nCols lat) with
  | none => []
  | some (cols, lons) => filter_longitude lonR (cols.zip lons)

/-- The `points_by_row` table of a bottom-left grid. -/
def pbrOf (m : ℕ) (nCols : ℚ → ℕ) (latR lonR : ℚ × ℚ) : List (List GridPoint) :=
  mapIdx (fun ri p => mapIdx (cellOf p.1 p.2 ri) 0 (rowPairs nCols lonR p.2)) 0
    (retainedRows m latR)

theorem subdivide_cols_ok (n : ℕ) (hn : 1 ≤ n) :
    ∃ z, subdivide_cols n
        = some (mkLabels 'L' 'R' z (subdivide_circumference n).length,
                subdivide_circumference n) ∧
      ∃ h : z < (subdivide_circumference n).length,
        (subdivide_circumference n).get ⟨z, h⟩ = 0 := by
  have hmem : (0 : ℚ) ∈ subdivide_circumference n := by
    unfold subdivide_circumference
    exact mem_insertionSort.mpr (zero_mem_rawLongitudes n hn)
  have hsome := firstIdx_isSome_of_mem (fun x => decide (x = 0)) hmem (by simp)
  cases hfi : firstIdx (fun x => decide (x = 0)) (subdivide_circumference n) with
  | none => rw [hfi] at hsome; simp at hsome
  | some z =>
    obtain ⟨hz, hget⟩ := firstIdx_some _ hfi
    refine ⟨z, ?_, hz, by simpa using hget⟩
    unfold subdivide_cols
    simp only [hfi]

theorem buildCells_bottomleft (dist : ℚ) (cosd : ℚ → ℚ) (r : List Char) (lat : ℚ) (ri : ℕ) :
    ∀ (ci : ℕ) (pairs : List (List Char × ℚ)),
      buildCells "bottomleft" dist cosd r lat ri ci pairs
        = Except.ok (mapIdx (cellOf r lat ri) ci pairs) := by
  intro ci pairs
  induction pairs generalizing ci with
  | nil => rfl
  | cons p rest ih =>
    obtain ⟨c, lon⟩ := p
    unfold buildCells cellUtm
    rw [if_pos rfl, get_utm_ok lat lon]
    simp only
    rw [ih (ci + 1)]
    rfl

theorem buildRows_bottomleft (dist : ℚ) (cosd : ℚ → ℚ) (nCols : ℚ → ℕ) (lonR : ℚ × ℚ)
    (hn : ∀ q, 1 ≤ nCols q) :
    ∀ (ri : ℕ) (pairs : List (List Char × ℚ)),
      buildRows "bottomleft" dist cosd nCols lonR ri pairs
        = Except.ok (mapIdx (fun rj p => mapIdx (cellOf p.1 p.2 rj) 0 (rowPairs nCols lonR p.2))
            ri pairs) := by
  intro ri pairs
  induction pairs generalizing ri with
  | nil => rfl
  | cons p rest ih =>
    obtain ⟨r, lat⟩ := p
    obtain ⟨z, hsub, -⟩ := subdivide_cols_ok (nCols lat) (hn lat)
    have hrp : rowPairs nCols lonR lat
        = filter_longitude lonR ((mkLabels 'L' 'R' z (subdivide_circumference (nCols lat)).length).zip
            (subdivide_circumference (nCols lat))) := by
      simp only [rowPairs, hsub]
    simp only [buildRows, hsub, buildCells_bottomleft, ih (ri + 1), mapIdx, hrp]

theorem mkGrid_bottomleft (m : ℕ) (nCols : ℚ → ℕ) (latR lonR : ℚ × ℚ) (dist : ℚ)
    (cosd : ℚ → ℚ) (hn : ∀ q, 1 ≤ nCols q) (hne : retainedRows m latR ≠ []) :
    mkGrid m nCols latR lonR "bottomleft" dist cosd
      = Except.ok ⟨(retainedRows m latR).map Prod.fst, (retainedRows m latR).map Prod.snd,
          pbrOf m nCols latR lonR, (pbrOf m nCols latR lonR).flatten⟩ := by
  unfold mkGrid get_points
  rw [buildRows_bottomleft dist cosd nCols lonR hn 0 (retainedRows m latR)]
  have hlen : (mapIdx (fun rj p => mapIdx (cellOf p.1 p.2 rj) 0 (rowPairs nCols lonR p.2)) 0
      (retainedRows m latR)).length = (retainedRows m latR).length := length_mapIdx _ _ _
  have hne2 : (mapIdx (fun rj p => mapIdx (cellOf p.1 p.2 rj) 0 (rowPairs nCols lonR p.2)) 0
      (retainedRows m latR)).isEmpty = false := by
    cases hl : mapIdx (fun rj p => mapIdx (cellOf p.1 p.2 rj) 0 (rowPairs nCols lonR p.2)) 0
        (retainedRows m latR) with
    | nil =>
      exfalso
      have hc := congrArg List.length hl
      rw [hlen] at hc
      simp at hc
      exact hne hc
    | cons a t => rfl
  simp only [hne2]
  rfl

theorem mkGrid_bottomleft_inv {m : ℕ} {nCols : ℚ → ℕ} {latR lonR : ℚ × ℚ} {dist : ℚ}
    {cosd : ℚ → ℚ} {g : MajorTomGrid} (hn : ∀ q, 1 ≤ nCols q)
    (h : mkGrid m nCols latR lonR "bottomleft" dist cosd = Except.ok g) :
    g.rows = (retainedRows m latR).map Prod.fst ∧
      g.lats = (retainedRows m latR).map Prod.snd ∧
      g.points_by_row = pbrOf m nCols latR lonR ∧
      g.points = (pbrOf m nCols latR lonR).flatten ∧
      retainedRows m latR ≠ [] := by
  by_cases hne : retainedRows m latR = []
  · exfalso
    unfold mkGrid get_points at h
    rw [buildRows_bottomleft dist cosd nCols lonR hn 0 (retainedRows m latR), hne] at h
    simp [mapIdx] at h
  · rw [mkGrid_bottomleft m nCols latR lonR dist cosd hn hne] at h
    have hg := (Except.ok.injEq _ _).mp h.symm
    subst hg
    exact ⟨rfl, rfl, rfl, rfl, hne⟩

/-! ### Invariants of the retained rows and row pairs -/

theorem retainedRows_sublist_zip (m : ℕ) (latR : ℚ × ℚ) :
    (retainedRows m latR).Sublist
      ((mkLabels 'D' 'U' (searchsorted (List.insertionSort (· ≤ ·) (rawLatitudes m)) 0)
          (List.insertionSort (· ≤ ·) (rawLatitudes m)).length).zip
        (List.insertionSort (· ≤ ·) (rawLatitudes m))) :=
  List.filter_sublist _

theorem sortedLats_length (m : ℕ) :
    (List.insertionSort (· ≤ ·) (rawLatitudes m)).length = m := by
  rw [(List.perm_insertionSort (· ≤ ·) (rawLatitudes m)).length_eq]
  simp [rawLatitudes]

theorem retainedLats_sorted_le (m : ℕ) (latR : ℚ × ℚ) :
    List.Sorted (· ≤ ·) ((retainedRows m latR).map Prod.snd) := by
  have hsub : ((retainedRows m latR).map Prod.snd).Sublist
      (List.insertionSort (· ≤ ·) (rawLatitudes m)) := by
    have h1 := List.Sublist.map Prod.snd (retainedRows_sublist_zip m latR)
    rw [List.map_snd_zip _ _ (by rw [length_mkLabels])] at h1
    exact h1
  exact List.Pairwise.sublist hsub (sorted_le_of_insertionSort _)

theorem retainedLats_sorted_lt (m : ℕ) (latR : ℚ × ℚ) :
    List.Sorted (· < ·) ((retainedRows m latR).map Prod.snd) := by
  have hsub : ((retainedRows m latR).map Prod.snd).Sublist
      (List.insertionSort (· ≤ ·) (rawLatitudes m)) := by
    have h1 := List.Sublist.map Prod.snd (retainedRows_sublist_zip m latR)
    rw [List.map_snd_zip _ _ (by rw [length_mkLabels])] at h1
    exact h1
  exact List.Pairwise.sublist hsub
    (sorted_lt_of_sorted_nodup (sorted_le_of_insertionSort _)
      (insertionSort_nodup (rawLatitudes_nodup m)))

theorem retainedLabels_nodup (m : ℕ) (latR : ℚ × ℚ) :
    ((retainedRows m latR).map Prod.fst).Nodup := by
  have hsub : ((retainedRows m latR).map Prod.fst).Sublist
      (mkLabels 'D' 'U' (searchsorted (List.insertionSort (· ≤ ·) (rawLatitudes m)) 0)
        (List.insertionSort (· ≤ ·) (rawLatitudes m)).length) := by
    have h1 := List.Sublist.map Prod.fst (retainedRows_sublist_zip m latR)
    rw [List.map_fst_zip _ _ (by rw [length_mkLabels])] at h1
    exact h1
  exact List.Nodup.sublist hsub (mkLabels_nodup (by decide) _ _)

theorem retainedLats_mem_range (m : ℕ) (latR : ℚ × ℚ) {la : ℚ}
    (h : la ∈ (retainedRows m latR).map Prod.snd) : latR.1 ≤ la ∧ la ≤ latR.2 := by
  obtain ⟨p, hp, rfl⟩ := List.mem_map.mp h
  have := List.of_mem_filter hp
  simp only [Bool.and_eq_true, decide_eq_true_eq] at this
  exact this

theorem retainedRows_mem_labels (m : ℕ) (latR : ℚ × ℚ) {p : List Char × ℚ}
    (h : p ∈ retainedRows m latR) :
    p.1 ∈ mkLabels 'D' 'U' (searchsorted (List.insertionSort (· ≤ ·) (rawLatitudes m)) 0)
      (List.insertionSort (· ≤ ·) (rawLatitudes m)).length := by
  have hz := List.mem_filter.mp h
  obtain ⟨a, b⟩ := p
  exact (List.mem_zip hz.1).1

theorem rowPairs_sublist_zip (nCols : ℚ → ℕ) (lonR : ℚ × ℚ) (lat : ℚ)
    (hn : 1 ≤ nCols lat) :
    ∃ z, (rowPairs nCols lonR lat).Sublist
        ((mkLabels 'L' 'R' z (subdivide_circumference (nCols lat)).length).zip
          (subdivide_circumference (nCols lat))) := by
  obtain ⟨z, hsub, -⟩ := subdivide_cols_ok (nCols lat) hn
  refine ⟨z, ?_⟩
  simp only [rowPairs, hsub]
  exact List.filter_sublist _

theorem rowPairs_lons_sorted_le (nCols : ℚ → ℕ) (lonR : ℚ × ℚ) (lat : ℚ)
    (hn : 1 ≤ nCols lat) :
    List.Sorted (· ≤ ·) ((rowPairs nCols lonR lat).map Prod.snd) := by
  obtain ⟨z, hsub⟩ := rowPairs_sublist_zip nCols lonR lat hn
  have h1 := List.Sublist.map Prod.snd hsub
  rw [List.map_snd_zip _ _ (by rw [length_mkLabels])] at h1
  exact List.Pairwise.sublist h1 (sorted_le_of_insertionSort _)

theorem rowPairs_lons_sorted_lt (nCols : ℚ → ℕ) (lonR : ℚ × ℚ) (lat : ℚ)
    (hn : 1 ≤ nCols lat) :
    List.Sorted (· < ·) ((rowPairs nCols lonR lat).map Prod.snd) := by
  obtain ⟨z, hsub⟩ := rowPairs_sublist_zip nCols lonR lat hn
  have h1 := List.Sublist.map Prod.snd hsub
  rw [List.map_snd_zip _ _ (by rw [length_mkLabels])] at h1
  exact List.Pairwise.sublist h1
    (sorted_lt_of_sorted_nodup (sorted_le_of_insertionSort _)
      (insertionSort_nodup (rawLongitudes_nodup _)))

theorem rowPairs_mem_range (nCols : ℚ → ℕ) (lonR : ℚ × ℚ) (lat : ℚ) {p : List Char × ℚ}
    (h : p ∈ rowPairs nCols lonR lat) : lonR.1 ≤ p.2 ∧ p.2 ≤ lonR.2 := by
  unfold rowPairs at h
  cases hs : subdivide_cols (nCols lat) with
  | none => rw [hs] at h; simp at h
  | some cl =>
    rw [hs] at h
    have := List.of_mem_filter h
    simp only [Bool.and_eq_true, decide_eq_true_eq] at this
    exact this

theorem rowPairs_mem_labels (nCols : ℚ → ℕ) (lonR : ℚ × ℚ) (lat : ℚ)
    (hn : 1 ≤ nCols lat) {p : List Char × ℚ} (h : p ∈ rowPairs nCols lonR lat) :
    ∃ z, p.1 ∈ mkLabels 'L' 'R' z (subdivide_circumference (nCols lat)).length := by
  obtain ⟨z, hsub, -⟩ := subdivide_cols_ok (nCols lat) hn
  simp only [rowPairs, hsub] at h
  have hz := List.mem_filter.mp h
  obtain ⟨a, b⟩ := p
  exact ⟨z, (List.mem_zip hz.1).1⟩

theorem mem_mkLabels {neg pos : Char} {z n : ℕ} {c : List Char}
    (h : c ∈ mkLabels neg pos z n) :
    (∃ k, 1 ≤ k ∧ c = pyStrNat k ++ [neg]) ∨ (∃ k, c = pyStrNat k ++ [pos]) := by
  obtain ⟨i, hi, rfl⟩ := List.mem_map.mp h
  simp only [List.mem_range] at hi
  by_cases hiz : i < z
  · rw [if_pos hiz]
    exact Or.inl ⟨z - i, by omega, rfl⟩
  · rw [if_neg hiz]
    exact Or.inr ⟨i - z, rfl⟩

/-! ### Decode / re-encode round-trips on generated labels -/

theorem decodeLabelInt_pos_suffix (pos : Char) (k : ℕ) :
    decodeLabelInt pos (pyStrNat k ++ [pos]) = some (k : ℤ) := by
  unfold decodeLabelInt
  rw [List.dropLast_concat, pyInt_pyStrNat, List.getLast?_concat]
  simp

theorem decodeLabelInt_neg_suffix (pos neg : Char) (hne : neg ≠ pos) (k : ℕ) :
    decodeLabelInt pos (pyStrNat k ++ [neg]) = some (-(k : ℤ)) := by
  unfold decodeLabelInt
  rw [List.dropLast_concat, pyInt_pyStrNat, List.getLast?_concat]
  simp [hne]

theorem reEncodeLabel_pos (pos neg : Char) (k : ℕ) :
    reEncodeLabel pos neg (k : ℤ) = pyStrNat k ++ [pos] := by
  unfold reEncodeLabel
  rw [if_pos (Int.natCast_nonneg k), Int.toNat_natCast]

theorem reEncodeLabel_neg (pos neg : Char) (k : ℕ) (hk : 1 ≤ k) :
    reEncodeLabel pos neg (-(k : ℤ)) = pyStrNat k ++ [neg] := by
  unfold reEncodeLabel
  rw [if_neg (by omega)]
  norm_num

/-! ### Cells of a built row -/

theorem rowCells_length (r : List Char) (lat : ℚ) (ri : ℕ) (pairs : List (List Char × ℚ)) :
    (mapIdx (cellOf r lat ri) 0 pairs).length = pairs.length :=
  length_mapIdx _ _ _

theorem rowCells_get (r : List Char) (lat : ℚ) (ri : ℕ) (pairs : List (List Char × ℚ))
    (k : ℕ) (hk : k < pairs.length) :
    (mapIdx (cellOf r lat ri) 0 pairs).get ⟨k, by rw [rowCells_length]; exact hk⟩
      = ⟨r, (pairs.get ⟨k, hk⟩).1, ri, k, lat, (pairs.get ⟨k, hk⟩).2,
          utmEpsgBL lat (pairs.get ⟨k, hk⟩).2⟩ := by
  have h := mapIdx_get (cellOf r lat ri) 0 pairs k hk
  simpa [cellOf] using h

theorem rowCells_map_lon (r : List Char) (lat : ℚ) (ri : ℕ) :
    ∀ (s : ℕ) (pairs : List (List Char × ℚ)),
      (mapIdx (cellOf r lat ri) s pairs).map GridPoint.lon = pairs.map Prod.snd := by
  intro s pairs
  induction pairs generalizing s with
  | nil => rfl
  | cons p rest ih => simp [mapIdx, cellOf, ih]

theorem rowCells_mem (r : List Char) (lat : ℚ) (ri : ℕ) {pairs : List (List Char × ℚ)}
    {q : GridPoint} (hq : q ∈ mapIdx (cellOf r lat ri) 0 pairs) :
    ∃ (k : ℕ) (hk : k < pairs.length),
      q = ⟨r, (pairs.get ⟨k, hk⟩).1, ri, k, lat, (pairs.get ⟨k, hk⟩).2,
          utmEpsgBL lat (pairs.get ⟨k, hk⟩).2⟩ := by
  obtain ⟨k, hk, hqe⟩ := mapIdx_mem (cellOf r lat ri) 0 pairs q hq
  exact ⟨k, hk, by simpa [cellOf] using hqe⟩

theorem pbrOf_length (m : ℕ) (nCols : ℚ → ℕ) (latR lonR : ℚ × ℚ) :
    (pbrOf m nCols latR lonR).length = (retainedRows m latR).length :=
  length_mapIdx _ _ _

theorem pbrOf_get (m : ℕ) (nCols : ℚ → ℕ) (latR lonR : ℚ × ℚ) (ri : ℕ)
    (hri : ri < (retainedRows m latR).length) :
    (pbrOf m nCols latR lonR).get ⟨ri, by rw [pbrOf_length]; exact hri⟩
      = mapIdx (cellOf ((retainedRows m latR).get ⟨ri, hri⟩).1
          ((retainedRows m latR).get ⟨ri, hri⟩).2 ri) 0
          (rowPairs nCols lonR ((retainedRows m latR).get ⟨ri, hri⟩).2) := by
  have h := mapIdx_get (fun rj p => mapIdx (cellOf p.1 p.2 rj) 0 (rowPairs nCols lonR p.2))
    0 (retainedRows m latR) ri hri
  simpa using h

/-! ### Claim C9 -/

/-- C9: for every latitude in `[-90, 90]` and longitude in `[-180, 180]`,
`get_utm_zone_from_latlng` does not raise the invalid-EPSG-pattern error: the
computed zone number always lies between 1 and 60, so the constructed code
matches the valid UTM EPSG pattern and the error branch is unreachable. -/
theorem C9_utm_error_unreachable (lat lon : ℚ) (hlat : -90 ≤ lat ∧ lat ≤ 90)
    (hlon : -180 ≤ lon ∧ lon ≤ 180) :
    get_utm_zone_from_latlng lat lon = Except.ok (utmEpsgBL lat lon) ∧
      1 ≤ utmZoneNumber lat lon ∧ utmZoneNumber lat lon ≤ 60 :=
  ⟨get_utm_ok lat lon, (utmZoneNumber_bounds lat lon).1, (utmZoneNumber_bounds lat lon).2⟩

theorem C9_utm_error_unreachable_witness :
    ((-90 : ℚ) ≤ 12 ∧ (12 : ℚ) ≤ 90) ∧ ((-180 : ℚ) ≤ -77 ∧ (-77 : ℚ) ≤ 180) ∧
      (get_utm_zone_from_latlng 12 (-77) = Except.ok (utmEpsgBL 12 (-77)) ∧
        1 ≤ utmZoneNumber 12 (-77) ∧ utmZoneNumber 12 (-77) ≤ 60) :=
  ⟨⟨by norm_num, by norm_num⟩, ⟨by norm_num, by norm_num⟩,
    C9_utm_error_unreachable 12 (-77) ⟨by norm_num, by norm_num⟩ ⟨by norm_num, by norm_num⟩⟩

/-! ### Claim C6 -/

theorem utmZoneFormula_eval (lon : ℚ) (f : ℤ) (hf : ⌊(lon + 180) / 6⌋ = f) :
    utmZoneFormula lon = f % 60 + 1 := by
  unfold utmZoneFormula
  rw [hf]

/-- C6 (counterexample): at `(55.9, 7)` the claim asserts the result is "not
zone 32", but the unmodified formula itself yields zone 32, so
`get_utm_zone_from_latlng` returns EPSG 32632 there. -/
theorem C6_cex_norway_boundary :
    utmZoneNumber 55.9 7 = 32 ∧ get_utm_zone_from_latlng 55.9 7 = Except.ok 32632 := by
  have hz : utmZoneNumber 55.9 7 = 32 := by
    norm_num [utmZoneNumber, utmZoneFormula]
  refine ⟨hz, ?_⟩
  rw [get_utm_ok]
  unfold utmEpsgBL
  rw [hz]
  norm_num

/-- C6 (amended): `get_utm_zone_from_latlng` returns 32701 for `[-1, -174.34]`,
32630 for `[48, -4]`, 32633 for `[78, 13]`, 32734 for `[-34, 19.7]`; it
assigns zone 32 at `(60, 10)`, zone 31 at `(75, 5)` and zone 33 at `(75, 15)`;
and at `(55.9, 7)`, just south of the Norway band, the exception branch is
not taken — the result equals the unmodified zone formula's value, which is
itself zone 32 (EPSG 32632). -/
theorem C6_utm_zone_values :
    get_utm_zone_from_latlng (-1) (-174.34) = Except.ok 32701 ∧
    get_utm_zone_from_latlng 48 (-4) = Except.ok 32630 ∧
    get_utm_zone_from_latlng 78 13 = Except.ok 32633 ∧
    get_utm_zone_from_latlng (-34) 19.7 = Except.ok 32734 ∧
    utmZoneNumber 60 10 = 32 ∧
    utmZoneNumber 75 5 = 31 ∧
    utmZoneNumber 75 15 = 33 ∧
    utmZoneNumber 55.9 7 = utmZoneFormula 7 ∧
    utmZoneFormula 7 = 32 := by
  refine ⟨?_, ?_, ?_, ?_, ?_, ?_, ?_, ?_, ?_⟩
  · rw [get_utm_ok]
    norm_num [utmEpsgBL, utmZoneNumber, utmZoneFormula]
  · rw [get_utm_ok]
    norm_num [utmEpsgBL, utmZoneNumber, utmZoneFormula]
  · rw [get_utm_ok]
    norm_num [utmEpsgBL, utmZoneNumber, utmZoneFormula]
  · rw [get_utm_ok]
    norm_num [utmEpsgBL, utmZoneNumber, utmZoneFormula]
  · norm_num [utmZoneNumber, utmZoneFormula]
  · norm_num [utmZoneNumber, utmZoneFormula]
  · norm_num [utmZoneNumber, utmZoneFormula]
  · norm_num [utmZoneNumber]
  · norm_num [utmZoneFormula]

/-! ### A concrete grid for witnesses and counterexamples

`m = 2` pole-to-pole divisions with `latitude_range = (-90, 85)` retains the
two rows `1D` (latitude −90) and `0U` (latitude 0); a constant column count
of 2 gives each row the columns `1L` (longitude −180) and `0R` (longitude 0).
-/

def gEx : MajorTomGrid :=
  ⟨[['1', 'D'], ['0', 'U']], [-90, 0],
    [[⟨['1', 'D'], ['1', 'L'], 0, 0, -90, -180, 32701⟩,
      ⟨['1', 'D'], ['0', 'R'], 0, 1, -90, 0, 32731⟩],
     [⟨['0', 'U'], ['1', 'L'], 1, 0, 0, -180, 32601⟩,
      ⟨['0', 'U'], ['0', 'R'], 1, 1, 0, 0, 32631⟩]],
    [⟨['1', 'D'], ['1', 'L'], 0, 0, -90, -180, 32701⟩,
     ⟨['1', 'D'], ['0', 'R'], 0, 1, -90, 0, 32731⟩,
     ⟨['0', 'U'], ['1', 'L'], 1, 0, 0, -180, 32601⟩,
     ⟨['0', 'U'], ['0', 'R'], 1, 1, 0, 0, 32631⟩]⟩

theorem mkGrid_gEx :
    mkGrid 2 (fun _ => 2) (-90, 85) (-180, 180) "bottomleft" 1 (fun _ => 1)
      = Except.ok gEx := by
  norm_num [mkGrid, get_points, get_rows, buildRows, buildCells, cellUtm,
    get_utm_zone_from_latlng, epsgPatternOk, utmZoneNumber, utmZoneFormula, subdivide_cols,
    subdivide_circumference, rawLongitudes, rawLatitudes, retainedRows, mkLabels, searchsorted,
    filter_longitude, npMod, firstIdx, pyStrNat, toDigitsAux, gEx, List.range_succ,
    List.insertionSort, List.orderedInsert, List.countP_cons, List.filter_cons,
    List.flatten_cons]
  decide

/-! ### Claim C3 -/

/-- C3: for every valid `(spacing, latitude_range, longitude_range)` (the
division counts abstracted as `m`, `nCols ≥ 1`), the retained row latitudes
of a built grid all lie within `latitude_range` and are strictly increasing,
and within each retained row the cell longitudes all lie within
`longitude_range` and are strictly increasing. -/
theorem C3_rows_cols_sorted_in_range {m : ℕ} {nCols : ℚ → ℕ} {latR lonR : ℚ × ℚ}
    {dist : ℚ} {cosd : ℚ → ℚ} {g : MajorTomGrid} (hn : ∀ q, 1 ≤ nCols q)
    (h : mkGrid m nCols latR lonR "bottomleft" dist cosd = Except.ok g) :
    List.Sorted (· < ·) g.lats ∧
      (∀ la ∈ g.lats, latR.1 ≤ la ∧ la ≤ latR.2) ∧
      ∀ row ∈ g.points_by_row,
        List.Sorted (· < ·) (row.map GridPoint.lon) ∧
          ∀ p ∈ row, lonR.1 ≤ p.lon ∧ p.lon ≤ lonR.2 := by
  obtain ⟨hrows, hlats, hpbr, hpts, hne⟩ := mkGrid_bottomleft_inv hn h
  refine ⟨?_, ?_, ?_⟩
  · rw [hlats]
    exact retainedLats_sorted_lt m latR
  · rw [hlats]
    intro la hla
    exact retainedLats_mem_range m latR hla
  · rw [hpbr]
    intro row hrow
    obtain ⟨ri, hri, hrowe⟩ := mapIdx_mem _ 0 _ row hrow
    constructor
    · rw [hrowe, rowCells_map_lon]
      exact rowPairs_lons_sorted_lt nCols lonR _ (hn _)
    · intro p hp
      rw [hrowe] at hp
      obtain ⟨k, hk, hpe⟩ := rowCells_mem _ _ _ hp
      have hb := rowPairs_mem_range nCols lonR
        ((retainedRows m latR).get ⟨ri, hri⟩).2 (List.get_mem _ k hk)
      rw [hpe]
      exact hb

theorem C3_rows_cols_sorted_in_range_witness :
    (∀ q : ℚ, 1 ≤ (fun _ : ℚ => 2) q) ∧
      (List.Sorted (· < ·) gEx.lats ∧
        (∀ la ∈ gEx.lats, (-90 : ℚ) ≤ la ∧ la ≤ 85) ∧
        ∀ row ∈ gEx.points_by_row,
          List.Sorted (· < ·) (row.map GridPoint.lon) ∧
            ∀ p ∈ row, (-180 : ℚ) ≤ p.lon ∧ p.lon ≤ 180) :=
  ⟨fun _ => by norm_num,
    C3_rows_cols_sorted_in_range (fun _ => by norm_num) mkGrid_gEx⟩

/-! ### Claim C10 -/

theorem rowPairs_zeroR_mem (nCols : ℚ → ℕ) (lonR : ℚ × ℚ) (lat : ℚ)
    (hn : 1 ≤ nCols lat) (hlo : lonR.1 ≤ 0) (hhi : 0 ≤ lonR.2) :
    ((['0', 'R'] : List Char), (0 : ℚ)) ∈ rowPairs nCols lonR lat := by
  obtain ⟨z, hsub, hz, hget⟩ := subdivide_cols_ok (nCols lat) hn
  simp only [rowPairs, hsub]
  refine List.mem_filter.mpr ⟨?_, ?_⟩
  · have hzl : z < ((mkLabels 'L' 'R' z (subdivide_circumference (nCols lat)).length).zip
        (subdivide_circumference (nCols lat))).length := by
      rw [List.length_zip, length_mkLabels]
      omega
    have hpair := @List.get_zip _ _ (mkLabels 'L' 'R' z (subdivide_circumference (nCols lat)).length)
      (subdivide_circumference (nCols lat)) ⟨z, hzl⟩
    have hlab : (mkLabels 'L' 'R' z (subdivide_circumference (nCols lat)).length).get
        ⟨z, by rw [length_mkLabels]; exact hz⟩ = ['0', 'R'] := by
      rw [mkLabels_get hz]
      rw [if_neg (lt_irrefl z), Nat.sub_self]
      rfl
    refine List.mem_iff_get.mpr ⟨⟨z, hzl⟩, ?_⟩
    rw [hpair]
    simp only [Prod.mk.injEq]
    exact ⟨hlab, hget⟩
  · simp only [Bool.and_eq_true, decide_eq_true_eq]
    exact ⟨hlo, hhi⟩

/-- C10: for every per-latitude division count `n ≥ 1`, the longitude array
produced by `subdivide_circumference` contains the value `0` exactly (the
generated endpoint −180 normalizes to exactly 0 under the mod-360-minus-180
wrapping), so the zeroth-column search of `subdivide_cols` always succeeds;
and every row of a built grid whose longitude range includes 0 contains a
column labelled `0R` anchored at longitude 0. -/
theorem C10_zeroth_column_exists {m : ℕ} {nCols : ℚ → ℕ} {latR lonR : ℚ × ℚ}
    {dist : ℚ} {cosd : ℚ → ℚ} {g : MajorTomGrid} (n : ℕ) (hn1 : 1 ≤ n)
    (hn : ∀ q, 1 ≤ nCols q) (hlo : lonR.1 ≤ 0) (hhi : 0 ≤ lonR.2)
    (h : mkGrid m nCols latR lonR "bottomleft" dist cosd = Except.ok g) :
    (0 : ℚ) ∈ subdivide_circumference n ∧ (subdivide_cols n).isSome = true ∧
      ∀ row ∈ g.points_by_row, ∃ p ∈ row, p.col = ['0', 'R'] ∧ p.lon = 0 := by
  obtain ⟨hrows, hlats, hpbr, hpts, hne⟩ := mkGrid_bottomleft_inv hn h
  refine ⟨?_, ?_, ?_⟩
  · exact mem_insertionSort.mpr (zero_mem_rawLongitudes n hn1)
  · obtain ⟨z, hsub, -⟩ := subdivide_cols_ok n hn1
    rw [hsub]
    rfl
  · rw [hpbr]
    intro row hrow
    obtain ⟨ri, hri, hrowe⟩ := mapIdx_mem _ 0 _ row hrow
    have hzm := rowPairs_zeroR_mem nCols lonR ((retainedRows m latR).get ⟨ri, hri⟩).2
      (hn _) hlo hhi
    obtain ⟨⟨k, hk⟩, hgk⟩ := List.get_of_mem hzm
    have hcell := rowCells_get ((retainedRows m latR).get ⟨ri, hri⟩).1
      ((retainedRows m latR).get ⟨ri, hri⟩).2 (0 + ri) _ k hk
    refine ⟨(mapIdx (cellOf ((retainedRows m latR).get ⟨ri, hri⟩).1
        ((retainedRows m latR).get ⟨ri, hri⟩).2 (0 + ri)) 0
        (rowPairs nCols lonR ((retainedRows m latR).get ⟨ri, hri⟩).2)).get
        ⟨k, by rw [rowCells_length]; exact hk⟩, ?_, ?_⟩
    · rw [hrowe]
      exact List.get_mem _ k _
    · rw [hcell, hgk]
      exact ⟨rfl, rfl⟩

theorem C10_zeroth_column_exists_witness :
    (1 ≤ 2 ∧ (∀ q : ℚ, 1 ≤ (fun _ : ℚ => 2) q) ∧ (-180 : ℚ) ≤ 0 ∧ (0 : ℚ) ≤ 180) ∧
      ((0 : ℚ) ∈ subdivide_circumference 2 ∧ (subdivide_cols 2).isSome = true ∧
        ∀ row ∈ gEx.points_by_row, ∃ p ∈ row, p.col = ['0', 'R'] ∧ p.lon = 0) :=
  ⟨⟨by norm_num, fun _ => by norm_num, by norm_num, by norm_num⟩,
    C10_zeroth_column_exists 2 (by norm_num) (fun _ => by norm_num)
      (by norm_num) (by norm_num) mkGrid_gEx⟩

/-! ### Claim C8 -/

theorem label_roundtrip {pos neg : Char} (hne : neg ≠ pos) {c : List Char}
    (h : (∃ k, 1 ≤ k ∧ c = pyStrNat k ++ [neg]) ∨ (∃ k, c = pyStrNat k ++ [pos])) :
    ∃ zc, decodeLabelInt pos c = some zc ∧ reEncodeLabel pos neg zc = c := by
  rcases h with ⟨k, hk, rfl⟩ | ⟨k, rfl⟩
  · exact ⟨-(k : ℤ), decodeLabelInt_neg_suffix pos neg hne k, reEncodeLabel_neg pos neg k hk⟩
  · exact ⟨(k : ℤ), decodeLabelInt_pos_suffix pos k, reEncodeLabel_pos pos neg k⟩

/-- C8: for every retained cell of a built grid, decoding its row label with
integer output (`U` positive, `D` negative) and re-encoding the signed
integer under the grid's labeling scheme reproduces the original row label
exactly, and likewise for its column label (`R` positive, `L` negative). -/
theorem C8_label_roundtrip {m : ℕ} {nCols : ℚ → ℕ} {latR lonR : ℚ × ℚ}
    {dist : ℚ} {cosd : ℚ → ℚ} {g : MajorTomGrid} (hn : ∀ q, 1 ≤ nCols q)
    (h : mkGrid m nCols latR lonR "bottomleft" dist cosd = Except.ok g) :
    ∀ p ∈ g.points,
      (∃ zr, decodeLabelInt 'U' p.row = some zr ∧ reEncodeLabel 'U' 'D' zr = p.row) ∧
      (∃ zc, decodeLabelInt 'R' p.col = some zc ∧ reEncodeLabel 'R' 'L' zc = p.col) := by
  obtain ⟨hrows, hlats, hpbr, hpts, hne⟩ := mkGrid_bottomleft_inv hn h
  intro p hp
  rw [hpts] at hp
  obtain ⟨row, hrow, hpin⟩ := List.mem_flatten.mp hp
  obtain ⟨ri, hri, hrowe⟩ := mapIdx_mem _ 0 _ row hrow
  rw [hrowe] at hpin
  obtain ⟨k, hk, hpe⟩ := rowCells_mem _ _ _ hpin
  constructor
  · have hmem : (retainedRows m latR).get ⟨ri, hri⟩ ∈ retainedRows m latR :=
      List.get_mem _ ri hri
    have hlab := retainedRows_mem_labels m latR hmem
    have hform := mem_mkLabels hlab
    have hrt := label_roundtrip (show 'D' ≠ 'U' by decide) hform
    rw [hpe]
    exact hrt
  · have hpm : (rowPairs nCols lonR ((retainedRows m latR).get ⟨ri, hri⟩).2).get ⟨k, hk⟩
        ∈ rowPairs nCols lonR ((retainedRows m latR).get ⟨ri, hri⟩).2 :=
      List.get_mem _ k hk
    obtain ⟨z2, hz2⟩ := rowPairs_mem_labels nCols lonR _ (hn _) hpm
    have hform := mem_mkLabels hz2
    have hrt := label_roundtrip (show 'L' ≠ 'R' by decide) hform
    rw [hpe]
    exact hrt

theorem C8_label_roundtrip_witness :
    (∀ q : ℚ, 1 ≤ (fun _ : ℚ => 2) q) ∧
      ∀ p ∈ gEx.points,
        (∃ zr, decodeLabelInt 'U' p.row = some zr ∧ reEncodeLabel 'U' 'D' zr = p.row) ∧
        (∃ zc, decodeLabelInt 'R' p.col = some zc ∧ reEncodeLabel 'R' 'L' zc = p.col) :=
  ⟨fun _ => by norm_num, C8_label_roundtrip (fun _ => by norm_num) mkGrid_gEx⟩

/-! ### Evaluating `latlon2rowcol` via the searchsorted specification -/

/-- A throwaway default cell for `List.getD`. -/
def gpDefault : GridPoint := ⟨[], [], 0, 0, 0, 0, 0⟩

theorem latlon2rowcol1_eval {g : MajorTomGrid}
    (hlen1 : g.points_by_row.length = g.lats.length)
    (hlen2 : g.rows.length = g.lats.length)
    {qlat qlon : ℚ}
    (hrow : ∃ la ∈ g.lats, la < qlat)
    (hcol : ∃ p ∈ g.points_by_row.getD (searchsorted g.lats qlat - 1) [], p.lon < qlon) :
    searchsorted g.lats qlat - 1 < g.lats.length ∧
    searchsorted ((g.points_by_row.getD (searchsorted g.lats qlat - 1) []).map GridPoint.lon)
        qlon - 1
      < (g.points_by_row.getD (searchsorted g.lats qlat - 1) []).length ∧
    latlon2rowcol1 g qlat qlon
      = some (g.rows.getD (searchsorted g.lats qlat - 1) [],
          ((g.points_by_row.getD (searchsorted g.lats qlat - 1) []).getD
            (searchsorted ((g.points_by_row.getD (searchsorted g.lats qlat - 1) []).map
              GridPoint.lon) qlon - 1) gpDefault).col) := by
  obtain ⟨x, hx, hxlt⟩ := hrow
  have hs1 : 1 ≤ searchsorted g.lats qlat :=
    (searchsorted_pos_iff _ _).mpr ⟨x, hx, hxlt⟩
  have hsle := searchsorted_le_length g.lats qlat
  have hj : searchsorted g.lats qlat - 1 < g.lats.length := by omega
  have hjp : searchsorted g.lats qlat - 1 < g.points_by_row.length := by omega
  have hjr : searchsorted g.lats qlat - 1 < g.rows.length := by omega
  have hrowD : g.points_by_row.getD (searchsorted g.lats qlat - 1) []
      = g.points_by_row.get ⟨searchsorted g.lats qlat - 1, hjp⟩ := by
    rw [List.getD_eq_getElem _ _ hjp]
    simp [List.get_eq_getElem]
  obtain ⟨p0, hp0, hp0lt⟩ := hcol
  rw [hrowD] at hp0
  have hmap : p0.lon ∈ (g.points_by_row.get ⟨searchsorted g.lats qlat - 1, hjp⟩).map
      GridPoint.lon := List.mem_map_of_mem _ hp0
  have ht1 : 1 ≤ searchsorted ((g.points_by_row.get
      ⟨searchsorted g.lats qlat - 1, hjp⟩).map GridPoint.lon) qlon :=
    (searchsorted_pos_iff _ _).mpr ⟨p0.lon, hmap, hp0lt⟩
  have htle := searchsorted_le_length ((g.points_by_row.get
      ⟨searchsorted g.lats qlat - 1, hjp⟩).map GridPoint.lon) qlon
  have hmlen : ((g.points_by_row.get ⟨searchsorted g.lats qlat - 1, hjp⟩).map
      GridPoint.lon).length
      = (g.points_by_row.get ⟨searchsorted g.lats qlat - 1, hjp⟩).length :=
    List.length_map _ _
  have hk : searchsorted ((g.points_by_row.get ⟨searchsorted g.lats qlat - 1, hjp⟩).map
      GridPoint.lon) qlon - 1
      < (g.points_by_row.get ⟨searchsorted g.lats qlat - 1, hjp⟩).length := by omega
  refine ⟨hj, by rw [hrowD]; omega, ?_⟩
  have hidx : ((searchsorted g.lats qlat : ℤ) - 1).toNat = searchsorted g.lats qlat - 1 := by
    omega
  have e1 : pyGet g.points_by_row ((searchsorted g.lats qlat : ℤ) - 1)
      = some (g.points_by_row.get ⟨searchsorted g.lats qlat - 1, hjp⟩) := by
    rw [pyGet_nonneg g.points_by_row _ (by omega) (by omega)]
    simp only [hidx]
  have hidx2 : ((searchsorted ((g.points_by_row.get ⟨searchsorted g.lats qlat - 1, hjp⟩).map
      GridPoint.lon) qlon : ℤ) - 1).toNat
      = searchsorted ((g.points_by_row.get ⟨searchsorted g.lats qlat - 1, hjp⟩).map
          GridPoint.lon) qlon - 1 := by
    omega
  have e2 : pyGet (g.points_by_row.get ⟨searchsorted g.lats qlat - 1, hjp⟩)
      ((searchsorted ((g.points_by_row.get ⟨searchsorted g.lats qlat - 1, hjp⟩).map
        GridPoint.lon) qlon : ℤ) - 1)
      = some ((g.points_by_row.get ⟨searchsorted g.lats qlat - 1, hjp⟩).get
          ⟨searchsorted ((g.points_by_row.get ⟨searchsorted g.lats qlat - 1, hjp⟩).map
            GridPoint.lon) qlon - 1, hk⟩) := by
    rw [pyGet_nonneg _ _ (by omega) (by omega)]
    simp only [hidx2]
  have e3 : pyGet g.rows ((searchsorted g.lats qlat : ℤ) - 1)
      = some (g.rows.get ⟨searchsorted g.lats qlat - 1, hjr⟩) := by
    rw [pyGet_nonneg g.rows _ (by omega) (by omega)]
    simp only [hidx]
  simp only [latlon2rowcol1, e1, e2, e3, Option.some.injEq, Prod.mk.injEq]
  constructor
  · rw [List.getD_eq_getElem _ _ hjr]
    simp [List.get_eq_getElem]
  · rw [hrowD, List.getD_eq_getElem _ _ hk]
    simp [List.get_eq_getElem]

/-! ### Claim C1 -/

theorem grid_row_sorted_le {m : ℕ} {nCols : ℚ → ℕ} {latR lonR : ℚ × ℚ}
    {dist : ℚ} {cosd : ℚ → ℚ} {g : MajorTomGrid} (hn : ∀ q, 1 ≤ nCols q)
    (h : mkGrid m nCols latR lonR "bottomleft" dist cosd = Except.ok g) :
    ∀ row ∈ g.points_by_row, List.Sorted (· ≤ ·) (row.map GridPoint.lon) := by
  obtain ⟨-, -, hpbr, -, -⟩ := mkGrid_bottomleft_inv hn h
  rw [hpbr]
  intro row hrow
  obtain ⟨ri, hri, hrowe⟩ := mapIdx_mem _ 0 _ row hrow
  rw [hrowe, rowCells_map_lon]
  exact rowPairs_lons_sorted_le nCols lonR _ (hn _)

theorem grid_lengths {m : ℕ} {nCols : ℚ → ℕ} {latR lonR : ℚ × ℚ}
    {dist : ℚ} {cosd : ℚ → ℚ} {g : MajorTomGrid} (hn : ∀ q, 1 ≤ nCols q)
    (h : mkGrid m nCols latR lonR "bottomleft" dist cosd = Except.ok g) :
    g.points_by_row.length = g.lats.length ∧ g.rows.length = g.lats.length := by
  obtain ⟨hrows, hlats, hpbr, -, -⟩ := mkGrid_bottomleft_inv hn h
  rw [hrows, hlats, hpbr]
  constructor
  · rw [pbrOf_length]
    simp
  · simp

/-- C1 (amended): for every query point with at least one retained row
latitude strictly below the query latitude and, within the found row, at
least one column longitude strictly below the query longitude,
`latlon2rowcol` returns the row whose latitude is the greatest retained row
latitude *strictly less than* the query latitude, and within that row the
column whose longitude is the greatest *strictly less than* the query
longitude; in particular a query point exactly equal to a row (or column)
boundary belongs to the cell strictly below (strictly west of) that
boundary, never the one at or above it. -/
theorem C1_floor_lookup_strict {m : ℕ} {nCols : ℚ → ℕ} {latR lonR : ℚ × ℚ}
    {dist : ℚ} {cosd : ℚ → ℚ} {g : MajorTomGrid} (hn : ∀ q, 1 ≤ nCols q)
    (h : mkGrid m nCols latR lonR "bottomleft" dist cosd = Except.ok g)
    (qlat qlon : ℚ)
    (hrow : ∃ la ∈ g.lats, la < qlat)
    (hcol : ∃ p ∈ g.points_by_row.getD (searchsorted g.lats qlat - 1) [], p.lon < qlon) :
    ∃ (j : ℕ) (r c : List Char) (p : GridPoint),
      latlon2rowcol1 g qlat qlon = some (r, c) ∧
      j < g.lats.length ∧
      r = g.rows.getD j [] ∧
      g.lats.getD j 0 < qlat ∧
      (∀ la ∈ g.lats, la < qlat → la ≤ g.lats.getD j 0) ∧
      p ∈ g.points_by_row.getD j [] ∧ c = p.col ∧
      p.lon < qlon ∧
      (∀ q2 ∈ g.points_by_row.getD j [], q2.lon < qlon → q2.lon ≤ p.lon) := by
  obtain ⟨hlen1, hlen2⟩ := grid_lengths hn h
  obtain ⟨hj, hk, heq⟩ := latlon2rowcol1_eval hlen1 hlen2 hrow hcol
  have hsorted : List.Sorted (· ≤ ·) g.lats := by
    obtain ⟨-, hlats, -, -, -⟩ := mkGrid_bottomleft_inv hn h
    rw [hlats]
    exact retainedLats_sorted_le m latR
  obtain ⟨x, hx, hxlt⟩ := hrow
  have hpos : 0 < searchsorted g.lats qlat := (searchsorted_pos_iff _ _).mpr ⟨x, hx, hxlt⟩
  obtain ⟨hj2, hjlt, hjgr⟩ := searchsorted_greatest hsorted hpos
  have hrowmem : g.points_by_row.getD (searchsorted g.lats qlat - 1) [] ∈ g.points_by_row := by
    have hjp : searchsorted g.lats qlat - 1 < g.points_by_row.length := by omega
    rw [List.getD_eq_getElem _ _ hjp]
    exact List.getElem_mem _
  have hrsorted := grid_row_sorted_le hn h _ hrowmem
  obtain ⟨p0, hp0, hp0lt⟩ := hcol
  have hcpos : 0 < searchsorted ((g.points_by_row.getD (searchsorted g.lats qlat - 1) []).map
      GridPoint.lon) qlon :=
    (searchsorted_pos_iff _ _).mpr ⟨p0.lon, List.mem_map_of_mem _ hp0, hp0lt⟩
  obtain ⟨hk2, hklt, hkgr⟩ := searchsorted_greatest hrsorted hcpos
  refine ⟨searchsorted g.lats qlat - 1, _, _,
    (g.points_by_row.getD (searchsorted g.lats qlat - 1) []).getD
      (searchsorted ((g.points_by_row.getD (searchsorted g.lats qlat - 1) []).map
        GridPoint.lon) qlon - 1) gpDefault,
    heq, hj, rfl, ?_, ?_, ?_, rfl, ?_, ?_⟩
  · rw [List.getD_eq_getElem _ _ hj]
    simpa [List.get_eq_getElem] using hjlt
  · intro la hla hlalt
    have := hjgr la hla hlalt
    rw [List.getD_eq_getElem _ _ hj]
    simpa [List.get_eq_getElem] using this
  · rw [List.getD_eq_getElem _ _ hk]
    exact List.getElem_mem _
  · have hmlen : ((g.points_by_row.getD (searchsorted g.lats qlat - 1) []).map
        GridPoint.lon).length
        = (g.points_by_row.getD (searchsorted g.lats qlat - 1) []).length :=
      List.length_map _ _
    have hkm : searchsorted ((g.points_by_row.getD (searchsorted g.lats qlat - 1) []).map
        GridPoint.lon) qlon - 1
        < ((g.points_by_row.getD (searchsorted g.lats qlat - 1) []).map GridPoint.lon).length := by
      omega
    have hgm := List.get_map GridPoint.lon
      (l := g.points_by_row.getD (searchsorted g.lats qlat - 1) [])
      (n := ⟨searchsorted ((g.points_by_row.getD (searchsorted g.lats qlat - 1) []).map
        GridPoint.lon) qlon - 1, hkm⟩)
    rw [hgm] at hklt
    rw [List.getD_eq_getElem _ _ hk]
    simpa [List.get_eq_getElem] using hklt
  · intro q2 hq2 hq2lt
    have := hkgr q2.lon (List.mem_map_of_mem _ hq2) hq2lt
    have hmlen : ((g.points_by_row.getD (searchsorted g.lats qlat - 1) []).map
        GridPoint.lon).length
        = (g.points_by_row.getD (searchsorted g.lats qlat - 1) []).length :=
      List.length_map _ _
    have hkm : searchsorted ((g.points_by_row.getD (searchsorted g.lats qlat - 1) []).map
        GridPoint.lon) qlon - 1
        < ((g.points_by_row.getD (searchsorted g.lats qlat - 1) []).map GridPoint.lon).length := by
      omega
    have hgm := List.get_map GridPoint.lon
      (l := g.points_by_row.getD (searchsorted g.lats qlat - 1) [])
      (n := ⟨searchsorted ((g.points_by_row.getD (searchsorted g.lats qlat - 1) []).map
        GridPoint.lon) qlon - 1, hkm⟩)
    rw [hgm] at this
    rw [List.getD_eq_getElem _ _ hk]
    simpa [List.get_eq_getElem] using this

/-- C1 (counterexample): on the concrete grid `gEx` the query latitude 0 is
exactly a retained row boundary (row `0U` at latitude 0), so the greatest
retained row latitude ≤ 0 is 0 itself with label `0U`; yet `latlon2rowcol`
returns the row `1D` at latitude −90 — the claimed "greatest retained row
latitude ≤ the query latitude" fails for boundary queries. -/
theorem C1_cex_boundary_row :
    latlon2rowcol1 gEx 0 10 = some (['1', 'D'], ['0', 'R']) ∧
    gEx.lats = [-90, 0] ∧ gEx.rows = [['1', 'D'], ['0', 'U']] ∧
    (0 : ℚ) ∈ gEx.lats ∧ (['1', 'D'] : List Char) ≠ ['0', 'U'] := by
  refine ⟨?_, rfl, rfl, by norm_num [gEx], by decide⟩
  norm_num [latlon2rowcol1, searchsorted, pyGet, gEx, List.countP_cons]

theorem C1_floor_lookup_strict_witness :
    ((∀ q : ℚ, 1 ≤ (fun _ : ℚ => 2) q) ∧
      (∃ la ∈ gEx.lats, la < -45) ∧
      (∃ p ∈ gEx.points_by_row.getD (searchsorted gEx.lats (-45) - 1) [], p.lon < -45)) ∧
    (∃ (j : ℕ) (r c : List Char) (p : GridPoint),
      latlon2rowcol1 gEx (-45) (-45) = some (r, c) ∧
      j < gEx.lats.length ∧
      r = gEx.rows.getD j [] ∧
      gEx.lats.getD j 0 < -45 ∧
      (∀ la ∈ gEx.lats, la < -45 → la ≤ gEx.lats.getD j 0) ∧
      p ∈ gEx.points_by_row.getD j [] ∧ c = p.col ∧
      p.lon < -45 ∧
      (∀ q2 ∈ gEx.points_by_row.getD j [], q2.lon < -45 → q2.lon ≤ p.lon)) :=
  ⟨⟨fun _ => by norm_num,
    ⟨-90, by norm_num [gEx], by norm_num⟩,
    ⟨⟨['1', 'D'], ['1', 'L'], 0, 0, -90, -180, 32701⟩,
      by norm_num [gEx, searchsorted, List.countP_cons], by norm_num⟩⟩,
    C1_floor_lookup_strict (fun _ => by norm_num) mkGrid_gEx (-45) (-45)
      ⟨-90, by norm_num [gEx], by norm_num⟩
      ⟨⟨['1', 'D'], ['1', 'L'], 0, 0, -90, -180, 32701⟩,
        by norm_num [gEx, searchsorted, List.countP_cons], by norm_num⟩⟩

/-! ### Claim C4 -/

theorem pyGet_isSome {α : Type} (l : List α) (i : ℤ) (h0 : -(l.length : ℤ) ≤ i)
    (h1 : i < (l.length : ℤ)) : ∃ a, pyGet l i = some a := by
  unfold pyGet
  by_cases hc : 0 ≤ i ∧ i < (l.length : ℤ)
  · rw [dif_pos hc]
    exact ⟨_, rfl⟩
  · rw [dif_neg hc, dif_pos ⟨h0, by omega⟩]
    exact ⟨_, rfl⟩

/-- The grid `gEx` restricted to `longitude_range = (-90, 90)`: the same two
rows, but each keeps only the single column `0R` at longitude 0. -/
def gEx3 : MajorTomGrid :=
  ⟨[['1', 'D'], ['0', 'U']], [-90, 0],
    [[⟨['1', 'D'], ['0', 'R'], 0, 0, -90, 0, 32731⟩],
     [⟨['0', 'U'], ['0', 'R'], 1, 0, 0, 0, 32631⟩]],
    [⟨['1', 'D'], ['0', 'R'], 0, 0, -90, 0, 32731⟩,
     ⟨['0', 'U'], ['0', 'R'], 1, 0, 0, 0, 32631⟩]⟩

theorem mkGrid_gEx3 :
    mkGrid 2 (fun _ => 2) (-90, 85) (-90, 90) "bottomleft" 1 (fun _ => 1)
      = Except.ok gEx3 := by
  norm_num [mkGrid, get_points, get_rows, buildRows, buildCells, cellUtm,
    get_utm_zone_from_latlng, epsgPatternOk, utmZoneNumber, utmZoneFormula, subdivide_cols,
    subdivide_circumference, rawLongitudes, rawLatitudes, retainedRows, mkLabels, searchsorted,
    filter_longitude, npMod, firstIdx, pyStrNat, toDigitsAux, gEx3, List.range_succ,
    List.insertionSort, List.orderedInsert, List.countP_cons, List.filter_cons,
    List.flatten_cons]
  decide

/-- C4 (counterexample): on the concrete grid `gEx3` the row of the query
point `(-45, -45)` retains only the column at longitude 0, so the query
longitude −45 is strictly west of the lowest retained column of its row —
outside the retained extent.  The claim says `latlon2rowcol` raises a
precise not-found error there; instead Python negative indexing silently
wraps around and the call returns the cell `('1D', '0R')`. -/
theorem C4_cex_silent_wraparound :
    latlon2rowcol1 gEx3 (-45) (-45) = some (['1', 'D'], ['0', 'R']) ∧
    (∀ p ∈ gEx3.points_by_row.getD (searchsorted gEx3.lats (-45) - 1) [],
      (-45 : ℚ) < p.lon) := by
  constructor
  · norm_num [latlon2rowcol1, searchsorted, pyGet, gEx3, List.countP_cons]
  · intro p hp
    have : p = ⟨['1', 'D'], ['0', 'R'], 0, 0, -90, 0, 32731⟩ := by
      revert hp
      norm_num [gEx3, searchsorted, List.countP_cons]
    rw [this]
    norm_num

/-- C4 (amended): `rowcol2latlon` raises a precise not-found signal
(`IndexError`, modelled as `none`) exactly when no table row carries the
requested `(row_label, col_label)` pair, and any successful answer is the
stored anchor of a matching cell; `latlon2rowcol`, however, never raises for
a query south of the lowest retained row — Python negative indexing silently
wraps around and it answers with the *northernmost* row's label (and the
analogous wrap-around happens for a longitude west of the lowest retained
column of the row). -/
theorem C4_lookup_miss_behaviour {m : ℕ} {nCols : ℚ → ℕ} {latR lonR : ℚ × ℚ}
    {dist : ℚ} {cosd : ℚ → ℚ} {g : MajorTomGrid} (hn : ∀ q, 1 ≤ nCols q)
    (h : mkGrid m nCols latR lonR "bottomleft" dist cosd = Except.ok g) :
    (∀ r c : List Char, rowcol2latlon1 g r c = none ↔
        ∀ p ∈ g.points, ¬(p.row = r ∧ p.col = c)) ∧
    (∀ (r c : List Char) (lat lon : ℚ), rowcol2latlon1 g r c = some (lat, lon) →
        ∃ p ∈ g.points, p.row = r ∧ p.col = c ∧ p.lat = lat ∧ p.lon = lon) ∧
    (∀ qlat qlon : ℚ, (∀ la ∈ g.lats, ¬(la < qlat)) →
      g.points_by_row.getD (g.points_by_row.length - 1) [] ≠ [] →
      ∃ c, latlon2rowcol1 g qlat qlon
          = some (g.rows.getD (g.rows.length - 1) [], c)) := by
  obtain ⟨hlen1, hlen2⟩ := grid_lengths hn h
  have hlatsne : g.lats ≠ [] := by
    obtain ⟨-, hlats, -, -, hne⟩ := mkGrid_bottomleft_inv hn h
    rw [hlats]
    intro hc
    exact hne (List.map_eq_nil.mp hc)
  refine ⟨?_, ?_, ?_⟩
  · intro r c
    unfold rowcol2latlon1
    cases hf : g.points.find? (fun p => decide (p.row = r) && decide (p.col = c)) with
    | none =>
      simp only [List.find?_eq_none] at hf
      simp only [true_iff]
      intro p hp hpc
      have := hf p hp
      simp only [Bool.and_eq_true, decide_eq_true_eq] at this
      exact this ⟨hpc.1, hpc.2⟩
    | some p =>
      simp only
      constructor
      · intro hc2
        exact absurd hc2 (by simp)
      · intro hall
        have hmem := List.mem_of_find?_eq_some hf
        have hpred := List.find?_some hf
        simp only [Bool.and_eq_true, decide_eq_true_eq] at hpred
        exact absurd ⟨hpred.1, hpred.2⟩ (hall p hmem)
  · intro r c lat lon hsome
    unfold rowcol2latlon1 at hsome
    cases hf : g.points.find? (fun p => decide (p.row = r) && decide (p.col = c)) with
    | none => rw [hf] at hsome; simp at hsome
    | some p =>
      rw [hf] at hsome
      simp only [Option.some.injEq, Prod.mk.injEq] at hsome
      have hmem := List.mem_of_find?_eq_some hf
      have hpred := List.find?_some hf
      simp only [Bool.and_eq_true, decide_eq_true_eq] at hpred
      exact ⟨p, hmem, hpred.1, hpred.2, hsome.1, hsome.2⟩
  · intro qlat qlon hlow hlastne
    have hz : searchsorted g.lats qlat = 0 := by
      unfold searchsorted
      rw [List.countP_eq_zero]
      intro la hla
      simp only [decide_eq_true_eq]
      exact hlow la hla
    have hN : 1 ≤ g.points_by_row.length := by
      have : g.lats.length ≠ 0 := fun hc => hlatsne (List.length_eq_zero.mp hc)
      omega
    have hNr : 1 ≤ g.rows.length := by
      have : g.lats.length ≠ 0 := fun hc => hlatsne (List.length_eq_zero.mp hc)
      omega
    have hNm : g.points_by_row.length - 1 < g.points_by_row.length := by omega
    have hNrm : g.rows.length - 1 < g.rows.length := by omega
    have e1 : pyGet g.points_by_row ((searchsorted g.lats qlat : ℤ) - 1)
        = some (g.points_by_row.getD (g.points_by_row.length - 1) []) := by
      rw [hz]
      rw [show ((0 : ℕ) : ℤ) - 1 = (-1 : ℤ) by norm_num]
      rw [pyGet_neg g.points_by_row (-1 : ℤ) (by omega) (by omega)]
      rw [List.getD_eq_getElem _ _ hNm]
      congr 1
      have : ((-1 : ℤ) + (g.points_by_row.length : ℤ)).toNat
          = g.points_by_row.length - 1 := by omega
      simp only [this, List.get_eq_getElem]
    have hL : 1 ≤ (g.points_by_row.getD (g.points_by_row.length - 1) []).length := by
      cases hcase : g.points_by_row.getD (g.points_by_row.length - 1) [] with
      | nil => exact absurd hcase hlastne
      | cons a t => simp
    have htle := searchsorted_le_length
      ((g.points_by_row.getD (g.points_by_row.length - 1) []).map GridPoint.lon) qlon
    have hmlen := List.length_map (g.points_by_row.getD (g.points_by_row.length - 1) [])
      GridPoint.lon
    obtain ⟨cell, hcell⟩ := pyGet_isSome
      (g.points_by_row.getD (g.points_by_row.length - 1) [])
      ((searchsorted ((g.points_by_row.getD (g.points_by_row.length - 1) []).map
        GridPoint.lon) qlon : ℤ) - 1) (by omega) (by omega)
    have e3 : pyGet g.rows ((searchsorted g.lats qlat : ℤ) - 1)
        = some (g.rows.getD (g.rows.length - 1) []) := by
      rw [hz]
      rw [show ((0 : ℕ) : ℤ) - 1 = (-1 : ℤ) by norm_num]
      rw [pyGet_neg g.rows (-1 : ℤ) (by omega) (by omega)]
      rw [List.getD_eq_getElem _ _ hNrm]
      congr 1
      have : ((-1 : ℤ) + (g.rows.length : ℤ)).toNat = g.rows.length - 1 := by omega
      simp only [this, List.get_eq_getElem]
    refine ⟨cell.col, ?_⟩
    simp only [latlon2rowcol1, e1, hcell, e3]

theorem C4_lookup_miss_behaviour_witness :
    (∀ q : ℚ, 1 ≤ (fun _ : ℚ => 2) q) ∧
      ((∀ r c : List Char, rowcol2latlon1 gEx r c = none ↔
          ∀ p ∈ gEx.points, ¬(p.row = r ∧ p.col = c)) ∧
        (∀ (r c : List Char) (lat lon : ℚ), rowcol2latlon1 gEx r c = some (lat, lon) →
          ∃ p ∈ gEx.points, p.row = r ∧ p.col = c ∧ p.lat = lat ∧ p.lon = lon) ∧
        (∀ qlat qlon : ℚ, (∀ la ∈ gEx.lats, ¬(la < qlat)) →
          gEx.points_by_row.getD (gEx.points_by_row.length - 1) [] ≠ [] →
          ∃ c, latlon2rowcol1 gEx qlat qlon
              = some (gEx.rows.getD (gEx.rows.length - 1) [], c))) :=
  ⟨fun _ => by norm_num,
    C4_lookup_miss_behaviour (fun _ => by norm_num) mkGrid_gEx⟩

/-! ### Claim C5 -/

theorem buildRows_unknown_error (mode : String) (dist : ℚ) (cosd : ℚ → ℚ) (nCols : ℚ → ℕ)
    (lonR : ℚ × ℚ) (hmode1 : mode ≠ "bottomleft") (hmode2 : mode ≠ "center")
    (hn : ∀ q, 1 ≤ nCols q) :
    ∀ (ri : ℕ) (pairs : List (List Char × ℚ)),
      (∃ p ∈ pairs, rowPairs nCols lonR p.2 ≠ []) →
      ∃ e, buildRows mode dist cosd nCols lonR ri pairs = Except.error e := by
  intro ri pairs
  induction pairs generalizing ri with
  | nil => intro hex; simp at hex
  | cons p rest ih =>
    intro hex
    obtain ⟨r, lat⟩ := p
    obtain ⟨z, hsub, -⟩ := subdivide_cols_ok (nCols lat) (hn lat)
    have hrp : rowPairs nCols lonR lat
        = filter_longitude lonR ((mkLabels 'L' 'R' z
            (subdivide_circumference (nCols lat)).length).zip
            (subdivide_circumference (nCols lat))) := by
      simp only [rowPairs, hsub]
    cases hfe : filter_longitude lonR ((mkLabels 'L' 'R' z
        (subdivide_circumference (nCols lat)).length).zip
        (subdivide_circumference (nCols lat))) with
    | nil =>
      have hrest : ∃ p2 ∈ rest, rowPairs nCols lonR p2.2 ≠ [] := by
        obtain ⟨p2, hp2, hp2ne⟩ := hex
        rcases List.mem_cons.mp hp2 with rfl | hmem
        · exact absurd (hrp.trans hfe) hp2ne
        · exact ⟨p2, hmem, hp2ne⟩
      obtain ⟨e, he⟩ := ih (ri + 1) hrest
      refine ⟨e, ?_⟩
      simp only [buildRows, hsub, hfe, buildCells, he]
    | cons q qs =>
      obtain ⟨cq, lonq⟩ := q
      refine ⟨"Invalid utm_definition " ++ mode, ?_⟩
      simp only [buildRows, hsub, hfe, buildCells, cellUtm, if_neg hmode1, if_neg hmode2]

theorem buildRows_all_empty (mode : String) (dist : ℚ) (cosd : ℚ → ℚ) (nCols : ℚ → ℕ)
    (lonR : ℚ × ℚ) (hn : ∀ q, 1 ≤ nCols q) :
    ∀ (ri : ℕ) (pairs : List (List Char × ℚ)),
      (∀ p ∈ pairs, rowPairs nCols lonR p.2 = []) →
      buildRows mode dist cosd nCols lonR ri pairs
        = Except.ok (pairs.map (fun _ => [])) := by
  intro ri pairs
  induction pairs generalizing ri with
  | nil => intro _; rfl
  | cons p rest ih =>
    intro hall
    obtain ⟨r, lat⟩ := p
    obtain ⟨z, hsub, -⟩ := subdivide_cols_ok (nCols lat) (hn lat)
    have hfe : filter_longitude lonR ((mkLabels 'L' 'R' z
        (subdivide_circumference (nCols lat)).length).zip
        (subdivide_circumference (nCols lat))) = [] := by
      have := hall (r, lat) (List.mem_cons_self _ _)
      simpa only [rowPairs, hsub] using this
    have hrest := ih (ri + 1) (fun p2 hp2 => hall p2 (List.mem_cons_of_mem _ hp2))
    simp only [buildRows, hsub, hfe, buildCells, hrest, List.map_cons]

/-- C5 (counterexample): constructing a grid over the inverted longitude
range `(10, -10)` does not raise any error — `MajorTomGrid.__init__`
succeeds and returns a grid whose two retained rows both carry zero cells —
contradicting the claim that an empty or inverted longitude range (or a
retained row with zero columns) raises an invalid-configuration error at
build time. -/
theorem C5_cex_inverted_lon_range_builds :
    mkGrid 2 (fun _ => 2) (-90, 85) (10, -10) "bottomleft" 1 (fun _ => 1)
      = Except.ok ⟨[['1', 'D'], ['0', 'U']], [-90, 0], [[], []], []⟩ := by
  norm_num [mkGrid, get_points, get_rows, buildRows, buildCells, cellUtm,
    get_utm_zone_from_latlng, epsgPatternOk, utmZoneNumber, utmZoneFormula, subdivide_cols,
    subdivide_circumference, rawLongitudes, rawLatitudes, retainedRows, mkLabels, searchsorted,
    filter_longitude, npMod, firstIdx, pyStrNat, toDigitsAux, List.range_succ,
    List.insertionSort, List.orderedInsert, List.countP_cons, List.filter_cons,
    List.flatten_cons]
  decide

/-- C5 (amended): `MajorTomGrid.__init__` performs no upfront validation.
An empty or inverted latitude range (no retained rows) raises only at the
final concatenation, whatever the CRS mode; with the bottom-left mode any
grid with at least one retained row builds successfully, even when an empty
or inverted longitude range leaves every retained row with zero columns; an
unknown CRS-assignment mode raises only while assembling the first cell of
the first nonempty row, and if every retained row has zero columns an
unknown mode raises nothing at all and a grid with empty rows is returned. -/
theorem C5_no_upfront_validation (m : ℕ) (nCols : ℚ → ℕ) (latR lonR : ℚ × ℚ)
    (mode : String) (dist : ℚ) (cosd : ℚ → ℚ) (hn : ∀ q, 1 ≤ nCols q) :
    (retainedRows m latR = [] →
      mkGrid m nCols latR lonR mode dist cosd
        = Except.error "No objects to concatenate") ∧
    (retainedRows m latR ≠ [] →
      mkGrid m nCols latR lonR "bottomleft" dist cosd
        = Except.ok ⟨(retainedRows m latR).map Prod.fst, (retainedRows m latR).map Prod.snd,
            pbrOf m nCols latR lonR, (pbrOf m nCols latR lonR).flatten⟩) ∧
    (mode ≠ "bottomleft" → mode ≠ "center" →
      (∃ p ∈ retainedRows m latR, rowPairs nCols lonR p.2 ≠ []) →
      ∃ e, mkGrid m nCols latR lonR mode dist cosd = Except.error e) ∧
    (retainedRows m latR ≠ [] →
      (∀ p ∈ retainedRows m latR, rowPairs nCols lonR p.2 = []) →
      ∃ g, mkGrid m nCols latR lonR mode dist cosd = Except.ok g ∧
        ∀ row ∈ g.points_by_row, row = []) := by
  refine ⟨?_, ?_, ?_, ?_⟩
  · intro hne
    unfold mkGrid get_points
    rw [hne]
    rfl
  · intro hne
    exact mkGrid_bottomleft m nCols latR lonR dist cosd hn hne
  · intro hm1 hm2 hex
    obtain ⟨e, he⟩ := buildRows_unknown_error mode dist cosd nCols lonR hm1 hm2 hn 0
      (retainedRows m latR) hex
    refine ⟨e, ?_⟩
    unfold mkGrid get_points
    rw [he]
  · intro hne hall
    have hb := buildRows_all_empty mode dist cosd nCols lonR hn 0 (retainedRows m latR) hall
    refine ⟨⟨(retainedRows m latR).map Prod.fst, (retainedRows m latR).map Prod.snd,
      (retainedRows m latR).map (fun _ => []), ((retainedRows m latR).map
        (fun _ => ([] : List GridPoint))).flatten⟩, ?_, ?_⟩
    · unfold mkGrid get_points
      rw [hb]
      have hie : ((retainedRows m latR).map (fun _ => ([] : List GridPoint))).isEmpty
          = false := by
        cases hcase : retainedRows m latR with
        | nil => exact absurd hcase hne
        | cons a t => rfl
      simp only [hie]
      rfl
    · intro row hrow
      obtain ⟨p, hp, hpe⟩ := List.mem_map.mp hrow
      exact hpe.symm

theorem C5_no_upfront_validation_witness :
    (∀ q : ℚ, 1 ≤ (fun _ : ℚ => 2) q) ∧
      ((retainedRows 2 (-90, 85) = [] →
        mkGrid 2 (fun _ => 2) (-90, 85) (10, -10) "weird" 1 (fun _ => 1)
          = Except.error "No objects to concatenate") ∧
      (retainedRows 2 (-90, 85) ≠ [] →
        mkGrid 2 (fun _ => 2) (-90, 85) (10, -10) "bottomleft" 1 (fun _ => 1)
          = Except.ok ⟨(retainedRows 2 (-90, 85)).map Prod.fst,
              (retainedRows 2 (-90, 85)).map Prod.snd,
              pbrOf 2 (fun _ => 2) (-90, 85) (10, -10),
              (pbrOf 2 (fun _ => 2) (-90, 85) (10, -10)).flatten⟩) ∧
      ("weird" ≠ "bottomleft" → "weird" ≠ "center" →
        (∃ p ∈ retainedRows 2 (-90, 85), rowPairs (fun _ => 2) (10, -10) p.2 ≠ []) →
        ∃ e, mkGrid 2 (fun _ => 2) (-90, 85) (10, -10) "weird" 1 (fun _ => 1)
          = Except.error e) ∧
      (retainedRows 2 (-90, 85) ≠ [] →
        (∀ p ∈ retainedRows 2 (-90, 85), rowPairs (fun _ => 2) (10, -10) p.2 = []) →
        ∃ g, mkGrid 2 (fun _ => 2) (-90, 85) (10, -10) "weird" 1 (fun _ => 1)
            = Except.ok g ∧ ∀ row ∈ g.points_by_row, row = [])) :=
  ⟨fun _ => by norm_num,
    C5_no_upfront_validation 2 (fun _ => 2) (-90, 85) (10, -10) "weird" 1 (fun _ => 1)
      (fun _ => by norm_num)⟩

/-! ### Claim C7 -/

theorem pyGet_eq_getD {α : Type} (d : α) (l : List α) (i : ℕ) (hi : i < l.length) :
    pyGet l (i : ℤ) = some (l.getD i d) := by
  rw [pyGet_nonneg l i (by omega) (by exact_mod_cast hi), List.getD_eq_getElem _ _ hi]
  simp [List.get_eq_getElem]

theorem pbrOf_getD (m : ℕ) (nCols : ℚ → ℕ) (latR lonR : ℚ × ℚ) (ri : ℕ)
    (hri : ri < (retainedRows m latR).length) :
    (pbrOf m nCols latR lonR).getD ri []
      = mapIdx (cellOf ((retainedRows m latR).get ⟨ri, hri⟩).1
          ((retainedRows m latR).get ⟨ri, hri⟩).2 ri) 0
          (rowPairs nCols lonR ((retainedRows m latR).get ⟨ri, hri⟩).2) := by
  have hlen : ri < (pbrOf m nCols latR lonR).length := by
    rw [pbrOf_length]
    exact hri
  have h1 : (pbrOf m nCols latR lonR).getD ri []
      = (pbrOf m nCols latR lonR).get ⟨ri, hlen⟩ := by
    rw [List.getD_eq_getElem _ _ hlen]
    rfl
  rw [h1]
  exact pbrOf_get m nCols latR lonR ri hri

theorem rowCells_getD (r : List Char) (lat : ℚ) (ri : ℕ) (pairs : List (List Char × ℚ))
    (k : ℕ) (hk : k < pairs.length) :
    (mapIdx (cellOf r lat ri) 0 pairs).getD k gpDefault
      = cellOf r lat ri k (pairs.get ⟨k, hk⟩) := by
  have hlen : k < (mapIdx (cellOf r lat ri) 0 pairs).length := by
    rw [rowCells_length]
    exact hk
  have h1 : (mapIdx (cellOf r lat ri) 0 pairs).getD k gpDefault
      = (mapIdx (cellOf r lat ri) 0 pairs).get ⟨k, hlen⟩ := by
    rw [List.getD_eq_getElem _ _ hlen]
    rfl
  rw [h1]
  exact rowCells_get r lat ri pairs k hk

theorem grid_cell_eq {m : ℕ} {nCols : ℚ → ℕ} {latR lonR : ℚ × ℚ}
    {dist : ℚ} {cosd : ℚ → ℚ} {g : MajorTomGrid} (hn : ∀ q, 1 ≤ nCols q)
    (h : mkGrid m nCols latR lonR "bottomleft" dist cosd = Except.ok g)
    (ri k : ℕ) (hri : ri < (retainedRows m latR).length)
    (hk : k < (rowPairs nCols lonR ((retainedRows m latR).get ⟨ri, hri⟩).2).length) :
    (g.points_by_row.getD ri []).getD k gpDefault
      = cellOf ((retainedRows m latR).get ⟨ri, hri⟩).1
          ((retainedRows m latR).get ⟨ri, hri⟩).2 ri k
          ((rowPairs nCols lonR ((retainedRows m latR).get ⟨ri, hri⟩).2).get ⟨k, hk⟩) := by
  obtain ⟨-, -, hpbr, -, -⟩ := mkGrid_bottomleft_inv hn h
  rw [hpbr, pbrOf_getD m nCols latR lonR ri hri, rowCells_getD]

/-- The full evaluation of `get_bounded_footprint` on a table cell of a
built grid (both the interior and the extrapolated edge branches). -/
theorem footprint_eval {m : ℕ} {nCols : ℚ → ℕ} {latR lonR : ℚ × ℚ}
    {dist : ℚ} {cosd : ℚ → ℚ} {g : MajorTomGrid} (hn : ∀ q, 1 ≤ nCols q)
    (h : mkGrid m nCols latR lonR "bottomleft" dist cosd = Except.ok g)
    (ri k : ℕ) (br : ℚ)
    (hri : ri < g.points_by_row.length)
    (hk : k < (g.points_by_row.getD ri []).length)
    (h2r : 2 ≤ g.lats.length)
    (h2c : 2 ≤ (g.points_by_row.getD ri []).length) :
    ∃ top right,
      top = (if ri + 1 < g.lats.length then g.lats.getD (ri + 1) 0
        else g.lats.getD ri 0 + (g.lats.getD ri 0 - g.lats.getD (ri - 1) 0)) ∧
      right = (if k + 1 < (g.points_by_row.getD ri []).length
        then ((g.points_by_row.getD ri []).getD (k + 1) gpDefault).lon
        else ((g.points_by_row.getD ri []).getD k gpDefault).lon
          + (((g.points_by_row.getD ri []).getD k gpDefault).lon
            - ((g.points_by_row.getD ri []).getD (k - 1) gpDefault).lon)) ∧
      get_bounded_footprint g ((g.points_by_row.getD ri []).getD k gpDefault) br
        = some [(((g.points_by_row.getD ri []).getD k gpDefault).lon
                  - (right - ((g.points_by_row.getD ri []).getD k gpDefault).lon) * br,
                 ((g.points_by_row.getD ri []).getD k gpDefault).lat
                  - (top - ((g.points_by_row.getD ri []).getD k gpDefault).lat) * br),
                (((g.points_by_row.getD ri []).getD k gpDefault).lon
                  - (right - ((g.points_by_row.getD ri []).getD k gpDefault).lon) * br,
                 top + (top - ((g.points_by_row.getD ri []).getD k gpDefault).lat) * br),
                (right + (right - ((g.points_by_row.getD ri []).getD k gpDefault).lon) * br,
                 top + (top - ((g.points_by_row.getD ri []).getD k gpDefault).lat) * br),
                (right + (right - ((g.points_by_row.getD ri []).getD k gpDefault).lon) * br,
                 ((g.points_by_row.getD ri []).getD k gpDefault).lat
                  - (top - ((g.points_by_row.getD ri []).getD k gpDefault).lat) * br)] := by
  obtain ⟨hlen1, hlen2⟩ := grid_lengths hn h
  have hriR : ri < (retainedRows m latR).length := by
    obtain ⟨-, hlats, -, -, -⟩ := mkGrid_bottomleft_inv hn h
    have : g.lats.length = (retainedRows m latR).length := by rw [hlats]; simp
    omega
  have hkP : k < (rowPairs nCols lonR ((retainedRows m latR).get ⟨ri, hriR⟩).2).length := by
    obtain ⟨-, -, hpbr, -, -⟩ := mkGrid_bottomleft_inv hn h
    rw [hpbr, pbrOf_getD m nCols latR lonR ri hriR, rowCells_length] at hk
    exact hk
  have hcell := grid_cell_eq hn h ri k hriR hkP
  have hrowidx : ((g.points_by_row.getD ri []).getD k gpDefault).row_idx = ri := by
    rw [hcell]
    rfl
  have hcolidx : ((g.points_by_row.getD ri []).getD k gpDefault).col_idx = k := by
    rw [hcell]
    rfl
  have hrilat : ri < g.lats.length := by omega
  have e_row : pyGet g.points_by_row (ri : ℤ) = some (g.points_by_row.getD ri []) :=
    pyGet_eq_getD [] g.points_by_row ri hri
  refine ⟨_, _, rfl, rfl, ?_⟩
  rcases Nat.lt_or_ge (ri + 1) g.lats.length with hcase | hcase
  · have hc1 : ¬(ri + 1 ≥ g.lats.length) := by omega
    have e_top : pyGet g.lats ((ri : ℤ) + 1) = some (g.lats.getD (ri + 1) 0) := by
      rw [show ((ri : ℤ) + 1) = ((ri + 1 : ℕ) : ℤ) by push_cast; ring]
      exact pyGet_eq_getD 0 g.lats (ri + 1) hcase
    rcases Nat.lt_or_ge (k + 1) (g.points_by_row.getD ri []).length with hkc | hkc
    · have hc2 : ¬((k : ℤ) + 1 > ((g.points_by_row.getD ri []).length : ℤ) - 1) := by omega
      have e_right : pyGet (g.points_by_row.getD ri []) ((k : ℤ) + 1)
          = some ((g.points_by_row.getD ri []).getD (k + 1) gpDefault) := by
        rw [show ((k : ℤ) + 1) = ((k + 1 : ℕ) : ℤ) by push_cast; ring]
        exact pyGet_eq_getD gpDefault _ (k + 1) hkc
      simp only [get_bounded_footprint, hrowidx, hcolidx, e_row, if_neg hc1, if_pos hcase,
        e_top, if_neg hc2, if_pos hkc, e_right, Option.map_some']
    · have hc2 : (k : ℤ) + 1 > ((g.points_by_row.getD ri []).length : ℤ) - 1 := by omega
      have hk1 : 1 ≤ k := by omega
      have e_k : pyGet (g.points_by_row.getD ri []) (k : ℤ)
          = some ((g.points_by_row.getD ri []).getD k gpDefault) :=
        pyGet_eq_getD gpDefault _ k hk
      have e_km : pyGet (g.points_by_row.getD ri []) ((k : ℤ) - 1)
          = some ((g.points_by_row.getD ri []).getD (k - 1) gpDefault) := by
        rw [show ((k : ℤ) - 1) = ((k - 1 : ℕ) : ℤ) by omega]
        exact pyGet_eq_getD gpDefault _ (k - 1) (by omega)
      simp only [get_bounded_footprint, hrowidx, hcolidx, e_row, if_neg hc1, if_pos hcase,
        e_top, if_pos hc2,
        if_neg (by omega : ¬(k + 1 < (g.points_by_row.getD ri []).length)), e_k, e_km]
  · have hc1 : ri + 1 ≥ g.lats.length := hcase
    have hri1 : 1 ≤ ri := by omega
    have e_ri : pyGet g.lats (ri : ℤ) = some (g.lats.getD ri 0) :=
      pyGet_eq_getD 0 g.lats ri hrilat
    have e_rim : pyGet g.lats ((ri : ℤ) - 1) = some (g.lats.getD (ri - 1) 0) := by
      rw [show ((ri : ℤ) - 1) = ((ri - 1 : ℕ) : ℤ) by omega]
      exact pyGet_eq_getD 0 g.lats (ri - 1) (by omega)
    rcases Nat.lt_or_ge (k + 1) (g.points_by_row.getD ri []).length with hkc | hkc
    · have hc2 : ¬((k : ℤ) + 1 > ((g.points_by_row.getD ri []).length : ℤ) - 1) := by omega
      have e_right : pyGet (g.points_by_row.getD ri []) ((k : ℤ) + 1)
          = some ((g.points_by_row.getD ri []).getD (k + 1) gpDefault) := by
        rw [show ((k : ℤ) + 1) = ((k + 1 : ℕ) : ℤ) by push_cast; ring]
        exact pyGet_eq_getD gpDefault _ (k + 1) hkc
      simp only [get_bounded_footprint, hrowidx, hcolidx, e_row, if_pos hc1,
        if_neg (by omega : ¬(ri + 1 < g.lats.length)), e_ri, e_rim,
        if_neg hc2, if_pos hkc, e_right, Option.map_some']
    · have hc2 : (k : ℤ) + 1 > ((g.points_by_row.getD ri []).length : ℤ) - 1 := by omega
      have hk1 : 1 ≤ k := by omega
      have e_k : pyGet (g.points_by_row.getD ri []) (k : ℤ)
          = some ((g.points_by_row.getD ri []).getD k gpDefault) :=
        pyGet_eq_getD gpDefault _ k hk
      have e_km : pyGet (g.points_by_row.getD ri []) ((k : ℤ) - 1)
          = some ((g.points_by_row.getD ri []).getD (k - 1) gpDefault) := by
        rw [show ((k : ℤ) - 1) = ((k - 1 : ℕ) : ℤ) by omega]
        exact pyGet_eq_getD gpDefault _ (k - 1) (by omega)
      simp only [get_bounded_footprint, hrowidx, hcolidx, e_row, if_pos hc1,
        if_neg (by omega : ¬(ri + 1 < g.lats.length)), e_ri, e_rim, if_pos hc2,
        if_neg (by omega : ¬(k + 1 < (g.points_by_row.getD ri []).length)), e_k, e_km]

/-- C7: `get_bounded_footprint` returns the axis-aligned rectangle whose
bottom-left corner is the cell's anchor point; the top edge is the latitude
of the next row north, except for the northernmost retained row where the
top is the cell's latitude plus the latitude gap to the row south of it; the
right edge is the longitude of the next column east in the same row, except
for the easternmost retained column where the right is the cell's longitude
plus the longitude gap to the column west of it; each vertical edge is then
moved outward by `buffer_ratio` times the cell's width and each horizontal
edge by `buffer_ratio` times its height; in particular the footprint of the
most-eastern, most-northern cell extrapolates both edges and does not raise
an index error. -/
theorem C7_footprint_shape {m : ℕ} {nCols : ℚ → ℕ} {latR lonR : ℚ × ℚ}
    {dist : ℚ} {cosd : ℚ → ℚ} {g : MajorTomGrid} (hn : ∀ q, 1 ≤ nCols q)
    (h : mkGrid m nCols latR lonR "bottomleft" dist cosd = Except.ok g)
    (ri k : ℕ) (br : ℚ)
    (hri : ri < g.points_by_row.length)
    (hk : k < (g.points_by_row.getD ri []).length)
    (h2r : 2 ≤ g.lats.length)
    (h2c : 2 ≤ (g.points_by_row.getD ri []).length) :
    ∃ top right,
      top = (if ri + 1 < g.lats.length then g.lats.getD (ri + 1) 0
        else g.lats.getD ri 0 + (g.lats.getD ri 0 - g.lats.getD (ri - 1) 0)) ∧
      right = (if k + 1 < (g.points_by_row.getD ri []).length
        then ((g.points_by_row.getD ri []).getD (k + 1) gpDefault).lon
        else ((g.points_by_row.getD ri []).getD k gpDefault).lon
          + (((g.points_by_row.getD ri []).getD k gpDefault).lon
            - ((g.points_by_row.getD ri []).getD (k - 1) gpDefault).lon)) ∧
      get_bounded_footprint g ((g.points_by_row.getD ri []).getD k gpDefault) br
        = some [(((g.points_by_row.getD ri []).getD k gpDefault).lon
                  - (right - ((g.points_by_row.getD ri []).getD k gpDefault).lon) * br,
                 ((g.points_by_row.getD ri []).getD k gpDefault).lat
                  - (top - ((g.points_by_row.getD ri []).getD k gpDefault).lat) * br),
                (((g.points_by_row.getD ri []).getD k gpDefault).lon
                  - (right - ((g.points_by_row.getD ri []).getD k gpDefault).lon) * br,
                 top + (top - ((g.points_by_row.getD ri []).getD k gpDefault).lat) * br),
                (right + (right - ((g.points_by_row.getD ri []).getD k gpDefault).lon) * br,
                 top + (top - ((g.points_by_row.getD ri []).getD k gpDefault).lat) * br),
                (right + (right - ((g.points_by_row.getD ri []).getD k gpDefault).lon) * br,
                 ((g.points_by_row.getD ri []).getD k gpDefault).lat
                  - (top - ((g.points_by_row.getD ri []).getD k gpDefault).lat) * br)] :=
  footprint_eval hn h ri k br hri hk h2r h2c

theorem C7_footprint_shape_witness :
    ((∀ q : ℚ, 1 ≤ (fun _ : ℚ => 2) q) ∧
      1 < gEx.points_by_row.length ∧ 1 < (gEx.points_by_row.getD 1 []).length ∧
      2 ≤ gEx.lats.length ∧ 2 ≤ (gEx.points_by_row.getD 1 []).length) ∧
    (∃ top right,
      top = (if 1 + 1 < gEx.lats.length then gEx.lats.getD (1 + 1) 0
        else gEx.lats.getD 1 0 + (gEx.lats.getD 1 0 - gEx.lats.getD (1 - 1) 0)) ∧
      right = (if 1 + 1 < (gEx.points_by_row.getD 1 []).length
        then ((gEx.points_by_row.getD 1 []).getD (1 + 1) gpDefault).lon
        else ((gEx.points_by_row.getD 1 []).getD 1 gpDefault).lon
          + (((gEx.points_by_row.getD 1 []).getD 1 gpDefault).lon
            - ((gEx.points_by_row.getD 1 []).getD (1 - 1) gpDefault).lon)) ∧
      get_bounded_footprint gEx ((gEx.points_by_row.getD 1 []).getD 1 gpDefault) (1 / 2)
        = some [(((gEx.points_by_row.getD 1 []).getD 1 gpDefault).lon
                  - (right - ((gEx.points_by_row.getD 1 []).getD 1 gpDefault).lon) * (1 / 2),
                 ((gEx.points_by_row.getD 1 []).getD 1 gpDefault).lat
                  - (top - ((gEx.points_by_row.getD 1 []).getD 1 gpDefault).lat) * (1 / 2)),
                (((gEx.points_by_row.getD 1 []).getD 1 gpDefault).lon
                  - (right - ((gEx.points_by_row.getD 1 []).getD 1 gpDefault).lon) * (1 / 2),
                 top + (top - ((gEx.points_by_row.getD 1 []).getD 1 gpDefault).lat) * (1 / 2)),
                (right + (right - ((gEx.points_by_row.getD 1 []).getD 1 gpDefault).lon) * (1 / 2),
                 top + (top - ((gEx.points_by_row.getD 1 []).getD 1 gpDefault).lat) * (1 / 2)),
                (right + (right - ((gEx.points_by_row.getD 1 []).getD 1 gpDefault).lon) * (1 / 2),
                 ((gEx.points_by_row.getD 1 []).getD 1 gpDefault).lat
                  - (top - ((gEx.points_by_row.getD 1 []).getD 1 gpDefault).lat) * (1 / 2))]) :=
  ⟨⟨fun _ => by norm_num, by norm_num [gEx], by norm_num [gEx], by norm_num [gEx],
      by norm_num [gEx]⟩,
    C7_footprint_shape (fun _ => by norm_num) mkGrid_gEx 1 1 (1 / 2)
      (by norm_num [gEx]) (by norm_num [gEx]) (by norm_num [gEx]) (by norm_num [gEx])⟩

/-! ### Claim C2 -/

theorem map_getD_eq {α β : Type} (f : α → β) (l : List α) (d : β) (j : ℕ)
    (hj : j < l.length) : (l.map f).getD j d = f (l.get ⟨j, hj⟩) := by
  have hlen : j < (l.map f).length := by simpa using hj
  rw [List.getD_eq_getElem _ _ hlen, List.getElem_map]
  rfl

theorem rowPairs_labels_nodup (nCols : ℚ → ℕ) (lonR : ℚ × ℚ) (lat : ℚ)
    (hn : 1 ≤ nCols lat) : ((rowPairs nCols lonR lat).map Prod.fst).Nodup := by
  obtain ⟨z, hsub⟩ := rowPairs_sublist_zip nCols lonR lat hn
  have h1 := List.Sublist.map Prod.fst hsub
  rw [List.map_fst_zip _ _ (by rw [length_mkLabels])] at h1
  exact List.Nodup.sublist h1 (mkLabels_nodup (by decide) _ _)

theorem mem_points_decompose {m : ℕ} {nCols : ℚ → ℕ} {latR lonR : ℚ × ℚ}
    {dist : ℚ} {cosd : ℚ → ℚ} {g : MajorTomGrid} (hn : ∀ q, 1 ≤ nCols q)
    (h : mkGrid m nCols latR lonR "bottomleft" dist cosd = Except.ok g)
    {q : GridPoint} (hq : q ∈ g.points) :
    ∃ (ri : ℕ) (hri : ri < (retainedRows m latR).length) (k : ℕ)
      (hk : k < (rowPairs nCols lonR ((retainedRows m latR).get ⟨ri, hri⟩).2).length),
      q = cellOf ((retainedRows m latR).get ⟨ri, hri⟩).1
        ((retainedRows m latR).get ⟨ri, hri⟩).2 ri k
        ((rowPairs nCols lonR ((retainedRows m latR).get ⟨ri, hri⟩).2).get ⟨k, hk⟩) := by
  obtain ⟨-, -, -, hpts, -⟩ := mkGrid_bottomleft_inv hn h
  rw [hpts] at hq
  obtain ⟨row, hrow, hqrow⟩ := List.mem_flatten.mp hq
  obtain ⟨ri, hri, hrowe⟩ := mapIdx_mem _ 0 _ row hrow
  simp only [Nat.zero_add] at hrowe
  rw [hrowe] at hqrow
  obtain ⟨k, hk, hqe⟩ := rowCells_mem _ _ _ hqrow
  exact ⟨ri, hri, k, hk, hqe⟩

theorem grid_points_label_unique {m : ℕ} {nCols : ℚ → ℕ} {latR lonR : ℚ × ℚ}
    {dist : ℚ} {cosd : ℚ → ℚ} {g : MajorTomGrid} (hn : ∀ q, 1 ≤ nCols q)
    (h : mkGrid m nCols latR lonR "bottomleft" dist cosd = Except.ok g)
    {q1 q2 : GridPoint} (h1 : q1 ∈ g.points) (h2 : q2 ∈ g.points)
    (hr : q1.row = q2.row) (hc : q1.col = q2.col) : q1 = q2 := by
  obtain ⟨ri1, hri1, k1, hk1, he1⟩ := mem_points_decompose hn h h1
  obtain ⟨ri2, hri2, k2, hk2, he2⟩ := mem_points_decompose hn h h2
  have hrow1 : q1.row = ((retainedRows m latR).get ⟨ri1, hri1⟩).1 := by rw [he1]; rfl
  have hrow2 : q2.row = ((retainedRows m latR).get ⟨ri2, hri2⟩).1 := by rw [he2]; rfl
  have hlab : ((retainedRows m latR).map Prod.fst).get
      ⟨ri1, by simpa using hri1⟩
      = ((retainedRows m latR).map Prod.fst).get ⟨ri2, by simpa using hri2⟩ := by
    rw [List.get_map, List.get_map]
    rw [← hrow1, ← hrow2]
    exact hr
  have hfin := (List.Nodup.get_inj_iff (retainedLabels_nodup m latR)).mp hlab
  have hrieq : ri1 = ri2 := by
    have := congrArg Fin.val hfin
    simpa using this
  subst hrieq
  have hpe : hri2 = hri1 := rfl
  subst hpe
  have hcol1 : q1.col = ((rowPairs nCols lonR ((retainedRows m latR).get ⟨ri1, hri2⟩).2).get
      ⟨k1, hk1⟩).1 := by rw [he1]; rfl
  have hcol2 : q2.col = ((rowPairs nCols lonR ((retainedRows m latR).get ⟨ri1, hri2⟩).2).get
      ⟨k2, hk2⟩).1 := by rw [he2]; rfl
  have hclab : ((rowPairs nCols lonR ((retainedRows m latR).get ⟨ri1, hri2⟩).2).map
      Prod.fst).get ⟨k1, by simpa using hk1⟩
      = ((rowPairs nCols lonR ((retainedRows m latR).get ⟨ri1, hri2⟩).2).map Prod.fst).get
        ⟨k2, by simpa using hk2⟩ := by
    rw [List.get_map, List.get_map]
    rw [← hcol1, ← hcol2]
    exact hc
  have hcfin := (List.Nodup.get_inj_iff
    (rowPairs_labels_nodup nCols lonR _ (hn _))).mp hclab
  have hkeq : k1 = k2 := by
    have := congrArg Fin.val hcfin
    simpa using this
  subst hkeq
  have hpe2 : hk2 = hk1 := rfl
  subst hpe2
  rw [he1, he2]

theorem two_le_length_of_mem_ne {α : Type} {l : List α} {a b : α}
    (ha : a ∈ l) (hb : b ∈ l) (hne : a ≠ b) : 2 ≤ l.length := by
  match l with
  | [] => exact absurd ha (List.not_mem_nil a)
  | [x] =>
    rw [List.mem_singleton] at ha hb
    exact absurd (ha.trans hb.symm) hne
  | x :: y :: t =>
    simp only [List.length_cons]
    omega

theorem searchsorted_lt_length {l : List ℚ} {v : ℚ} (hx : ∃ x ∈ l, v < x) :
    searchsorted l v < l.length := by
  obtain ⟨x, hxl, hvx⟩ := hx
  have hle := searchsorted_le_length l v
  rcases Nat.lt_or_ge (searchsorted l v) l.length with hlt | hge
  · exact hlt
  · exfalso
    have heq : searchsorted l v = l.length := by omega
    have hall := List.countP_eq_length.mp heq x hxl
    simp only [decide_eq_true_eq] at hall
    exact absurd (lt_trans hvx hall) (lt_irrefl v)

theorem searchsorted_next_ge {l : List ℚ} (hs : List.Sorted (· ≤ ·) l) {v : ℚ}
    (h : searchsorted l v < l.length) : v ≤ l.get ⟨searchsorted l v, h⟩ := by
  by_contra hlt
  push_neg at hlt
  have := (searchsorted_spec hs v _ h).mp hlt
  omega

/-- C2: for every query point strictly inside the retained grid (some row
latitude strictly below and some strictly above the query latitude, and,
within the looked-up row, some column longitude strictly below and some
strictly above the query longitude) that is not exactly on a row or column
boundary, feeding the `(row_label, col_label)` pair returned by
`latlon2rowcol` into `rowcol2latlon` yields the anchor `(lat, lon)` of the
matched cell, and the buffer-ratio-0 footprint of that cell computed by
`get_bounded_footprint` strictly contains the query point. -/
theorem C2_roundtrip_footprint_contains {m : ℕ} {nCols : ℚ → ℕ}
    {latR lonR : ℚ × ℚ} {dist : ℚ} {cosd : ℚ → ℚ} {g : MajorTomGrid}
    (hn : ∀ q, 1 ≤ nCols q)
    (h : mkGrid m nCols latR lonR "bottomleft" dist cosd = Except.ok g)
    (qlat qlon : ℚ)
    (hlow : ∃ la ∈ g.lats, la < qlat)
    (hhigh : ∃ la ∈ g.lats, qlat < la)
    (hnbr : qlat ∉ g.lats)
    (hclow : ∃ p ∈ g.points_by_row.getD (searchsorted g.lats qlat - 1) [],
      p.lon < qlon)
    (hchigh : ∃ p ∈ g.points_by_row.getD (searchsorted g.lats qlat - 1) [],
      qlon < p.lon)
    (hnbc : ∀ p ∈ g.points_by_row.getD (searchsorted g.lats qlat - 1) [],
      p.lon ≠ qlon) :
    ∃ (r c : List Char) (p : GridPoint) (top right : ℚ),
      latlon2rowcol1 g qlat qlon = some (r, c) ∧
      p ∈ g.points ∧ p.row = r ∧ p.col = c ∧
      rowcol2latlon1 g r c = some (p.lat, p.lon) ∧
      get_bounded_footprint g p 0
        = some [(p.lon, p.lat), (p.lon, top), (right, top), (right, p.lat)] ∧
      p.lat < qlat ∧ qlat < top ∧ p.lon < qlon ∧ qlon < right := by
  obtain ⟨hlen1, hlen2⟩ := grid_lengths hn h
  obtain ⟨hj, hk, heq⟩ := latlon2rowcol1_eval hlen1 hlen2 hlow hclow
  obtain ⟨hrows, hlats, hpbr, hpts, -⟩ := mkGrid_bottomleft_inv hn h
  obtain ⟨x0, hx0, hx0lt⟩ := hlow
  obtain ⟨x1, hx1, hx1lt⟩ := hhigh
  have hs1 : 1 ≤ searchsorted g.lats qlat :=
    (searchsorted_pos_iff _ _).mpr ⟨x0, hx0, hx0lt⟩
  have hslt : searchsorted g.lats qlat < g.lats.length :=
    searchsorted_lt_length ⟨x1, hx1, hx1lt⟩
  have hsorted : List.Sorted (· ≤ ·) g.lats := by
    rw [hlats]
    exact retainedLats_sorted_le m latR
  have hlatslen : g.lats.length = (retainedRows m latR).length := by
    rw [hlats]
    exact List.length_map _ _
  have hriR : searchsorted g.lats qlat - 1 < (retainedRows m latR).length := by omega
  have hjp : searchsorted g.lats qlat - 1 < g.points_by_row.length := by omega
  have hrowe : g.points_by_row.getD (searchsorted g.lats qlat - 1) []
      = mapIdx (cellOf
          ((retainedRows m latR).get ⟨searchsorted g.lats qlat - 1, hriR⟩).1
          ((retainedRows m latR).get ⟨searchsorted g.lats qlat - 1, hriR⟩).2
          (searchsorted g.lats qlat - 1)) 0
          (rowPairs nCols lonR
            ((retainedRows m latR).get ⟨searchsorted g.lats qlat - 1, hriR⟩).2) := by
    rw [hpbr]
    exact pbrOf_getD m nCols latR lonR _ hriR
  have hrowlen : (g.points_by_row.getD (searchsorted g.lats qlat - 1) []).length
      = (rowPairs nCols lonR
          ((retainedRows m latR).get ⟨searchsorted g.lats qlat - 1, hriR⟩).2).length := by
    rw [hrowe, rowCells_length]
  have hkP : searchsorted ((g.points_by_row.getD (searchsorted g.lats qlat - 1) []).map
        GridPoint.lon) qlon - 1
      < (rowPairs nCols lonR
          ((retainedRows m latR).get ⟨searchsorted g.lats qlat - 1, hriR⟩).2).length := by
    omega
  have hcell := grid_cell_eq hn h (searchsorted g.lats qlat - 1)
    (searchsorted ((g.points_by_row.getD (searchsorted g.lats qlat - 1) []).map
      GridPoint.lon) qlon - 1) hriR hkP
  have hrowmem : g.points_by_row.getD (searchsorted g.lats qlat - 1) []
      ∈ g.points_by_row := by
    rw [List.getD_eq_getElem _ _ hjp]
    exact List.getElem_mem _
  have hrsorted := grid_row_sorted_le hn h _ hrowmem
  obtain ⟨pa, hpa, hpalt⟩ := hclow
  obtain ⟨pb, hpb, hpblt⟩ := hchigh
  have ht1 : 1 ≤ searchsorted ((g.points_by_row.getD
      (searchsorted g.lats qlat - 1) []).map GridPoint.lon) qlon :=
    (searchsorted_pos_iff _ _).mpr ⟨pa.lon, List.mem_map_of_mem _ hpa, hpalt⟩
  have htlt : searchsorted ((g.points_by_row.getD
      (searchsorted g.lats qlat - 1) []).map GridPoint.lon) qlon
      < ((g.points_by_row.getD (searchsorted g.lats qlat - 1) []).map
          GridPoint.lon).length :=
    searchsorted_lt_length ⟨pb.lon, List.mem_map_of_mem _ hpb, hpblt⟩
  have hmlen : ((g.points_by_row.getD (searchsorted g.lats qlat - 1) []).map
      GridPoint.lon).length
      = (g.points_by_row.getD (searchsorted g.lats qlat - 1) []).length :=
    List.length_map _ _
  have htlt' : searchsorted ((g.points_by_row.getD
      (searchsorted g.lats qlat - 1) []).map GridPoint.lon) qlon
      < (g.points_by_row.getD (searchsorted g.lats qlat - 1) []).length := by omega
  have hprow : ((g.points_by_row.getD (searchsorted g.lats qlat - 1) []).getD
        (searchsorted ((g.points_by_row.getD (searchsorted g.lats qlat - 1) []).map
          GridPoint.lon) qlon - 1) gpDefault).row
      = g.rows.getD (searchsorted g.lats qlat - 1) [] := by
    rw [hcell, hrows,
      map_getD_eq Prod.fst (retainedRows m latR) [] (searchsorted g.lats qlat - 1) hriR]
    rfl
  have hpmem0 : (g.points_by_row.getD (searchsorted g.lats qlat - 1) []).getD
        (searchsorted ((g.points_by_row.getD (searchsorted g.lats qlat - 1) []).map
          GridPoint.lon) qlon - 1) gpDefault
      ∈ g.points_by_row.getD (searchsorted g.lats qlat - 1) [] := by
    rw [List.getD_eq_getElem _ _ hk]
    exact List.getElem_mem _
  have hpmem : (g.points_by_row.getD (searchsorted g.lats qlat - 1) []).getD
        (searchsorted ((g.points_by_row.getD (searchsorted g.lats qlat - 1) []).map
          GridPoint.lon) qlon - 1) gpDefault ∈ g.points := by
    rw [hpts, ← hpbr]
    exact List.mem_flatten.mpr ⟨_, hrowmem, hpmem0⟩
  have hfindsome : (g.points.find? (fun q2 =>
      decide (q2.row = g.rows.getD (searchsorted g.lats qlat - 1) []) &&
      decide (q2.col = ((g.points_by_row.getD (searchsorted g.lats qlat - 1) []).getD
        (searchsorted ((g.points_by_row.getD (searchsorted g.lats qlat - 1) []).map
          GridPoint.lon) qlon - 1) gpDefault).col))).isSome := by
    rw [List.find?_isSome]
    refine ⟨_, hpmem, ?_⟩
    rw [hprow]
    simp
  obtain ⟨p2, hfind⟩ := Option.isSome_iff_exists.mp hfindsome
  have hp2mem := List.mem_of_find?_eq_some hfind
  have hp2pred := List.find?_some hfind
  simp only [Bool.and_eq_true, decide_eq_true_eq] at hp2pred
  have hp2eq : p2 = (g.points_by_row.getD (searchsorted g.lats qlat - 1) []).getD
      (searchsorted ((g.points_by_row.getD (searchsorted g.lats qlat - 1) []).map
        GridPoint.lon) qlon - 1) gpDefault :=
    grid_points_label_unique hn h hp2mem hpmem
      (by rw [hp2pred.1, hprow]) hp2pred.2
  have hround : rowcol2latlon1 g (g.rows.getD (searchsorted g.lats qlat - 1) [])
      (((g.points_by_row.getD (searchsorted g.lats qlat - 1) []).getD
        (searchsorted ((g.points_by_row.getD (searchsorted g.lats qlat - 1) []).map
          GridPoint.lon) qlon - 1) gpDefault).col)
      = some (((g.points_by_row.getD (searchsorted g.lats qlat - 1) []).getD
          (searchsorted ((g.points_by_row.getD (searchsorted g.lats qlat - 1) []).map
            GridPoint.lon) qlon - 1) gpDefault).lat,
          ((g.points_by_row.getD (searchsorted g.lats qlat - 1) []).getD
            (searchsorted ((g.points_by_row.getD (searchsorted g.lats qlat - 1) []).map
              GridPoint.lon) qlon - 1) gpDefault).lon) := by
    unfold rowcol2latlon1
    rw [hfind, hp2eq]
  have h2r : 2 ≤ g.lats.length :=
    two_le_length_of_mem_ne hx0 hx1
      (by intro he; rw [he] at hx0lt; exact absurd (lt_trans hx1lt hx0lt) (lt_irrefl qlat))
  have h2c : 2 ≤ (g.points_by_row.getD (searchsorted g.lats qlat - 1) []).length :=
    two_le_length_of_mem_ne hpa hpb
      (by intro he; rw [he] at hpalt; exact absurd (lt_trans hpblt hpalt) (lt_irrefl qlon))
  obtain ⟨top, right, htop, hright, hfp⟩ := footprint_eval hn h
    (searchsorted g.lats qlat - 1)
    (searchsorted ((g.points_by_row.getD (searchsorted g.lats qlat - 1) []).map
      GridPoint.lon) qlon - 1) 0 hjp hk h2r h2c
  have hs_succ : searchsorted g.lats qlat - 1 + 1 = searchsorted g.lats qlat := by omega
  have hcond1 : searchsorted g.lats qlat - 1 + 1 < g.lats.length := by omega
  rw [if_pos hcond1, hs_succ] at htop
  have ht_succ : searchsorted ((g.points_by_row.getD
        (searchsorted g.lats qlat - 1) []).map GridPoint.lon) qlon - 1 + 1
      = searchsorted ((g.points_by_row.getD (searchsorted g.lats qlat - 1) []).map
          GridPoint.lon) qlon := by omega
  have hcond2 : searchsorted ((g.points_by_row.getD
        (searchsorted g.lats qlat - 1) []).map GridPoint.lon) qlon - 1 + 1
      < (g.points_by_row.getD (searchsorted g.lats qlat - 1) []).length := by omega
  rw [if_pos hcond2, ht_succ] at hright
  have hqlat_top : qlat < top := by
    have hlt2 : qlat < g.lats.get ⟨searchsorted g.lats qlat, hslt⟩ :=
      lt_of_le_of_ne (searchsorted_next_ge hsorted hslt)
        (fun he => hnbr (by rw [he]; exact List.get_mem g.lats _ hslt))
    rw [htop, List.getD_eq_getElem _ _ hslt]
    simpa [List.get_eq_getElem] using hlt2
  have hgm := List.get_map GridPoint.lon
    (l := g.points_by_row.getD (searchsorted g.lats qlat - 1) [])
    (n := ⟨searchsorted ((g.points_by_row.getD (searchsorted g.lats qlat - 1) []).map
      GridPoint.lon) qlon, htlt⟩)
  have hright_lt : qlon < right := by
    have hge := searchsorted_next_ge hrsorted htlt
    rw [hgm] at hge
    have hne : ((g.points_by_row.getD (searchsorted g.lats qlat - 1) []).get
        ⟨searchsorted ((g.points_by_row.getD (searchsorted g.lats qlat - 1) []).map
          GridPoint.lon) qlon, htlt'⟩).lon ≠ qlon :=
      hnbc _ (List.get_mem _ _ htlt')
    have hlt2 := lt_of_le_of_ne hge (fun he => hne he.symm)
    rw [hright, List.getD_eq_getElem _ _ htlt']
    simpa [List.get_eq_getElem] using hlt2
  obtain ⟨hjj, hjlt, -⟩ := searchsorted_greatest hsorted
    (by omega : 0 < searchsorted g.lats qlat)
  have hlatD := map_getD_eq Prod.snd (retainedRows m latR) 0
    (searchsorted g.lats qlat - 1) hriR
  rw [← hlats] at hlatD
  have hplat : ((g.points_by_row.getD (searchsorted g.lats qlat - 1) []).getD
        (searchsorted ((g.points_by_row.getD (searchsorted g.lats qlat - 1) []).map
          GridPoint.lon) qlon - 1) gpDefault).lat
      = ((retainedRows m latR).get ⟨searchsorted g.lats qlat - 1, hriR⟩).2 := by
    rw [hcell]
    rfl
  have hplat_lt : ((g.points_by_row.getD (searchsorted g.lats qlat - 1) []).getD
        (searchsorted ((g.points_by_row.getD (searchsorted g.lats qlat - 1) []).map
          GridPoint.lon) qlon - 1) gpDefault).lat < qlat := by
    rw [hplat, ← hlatD, List.getD_eq_getElem _ _ hj]
    simpa [List.get_eq_getElem] using hjlt
  obtain ⟨hkk, hklt, -⟩ := searchsorted_greatest hrsorted
    (by omega : 0 < searchsorted ((g.points_by_row.getD
      (searchsorted g.lats qlat - 1) []).map GridPoint.lon) qlon)
  have hkm : searchsorted ((g.points_by_row.getD (searchsorted g.lats qlat - 1) []).map
      GridPoint.lon) qlon - 1
      < ((g.points_by_row.getD (searchsorted g.lats qlat - 1) []).map
          GridPoint.lon).length := by omega
  have hgm2 := List.get_map GridPoint.lon
    (l := g.points_by_row.getD (searchsorted g.lats qlat - 1) [])
    (n := ⟨searchsorted ((g.points_by_row.getD (searchsorted g.lats qlat - 1) []).map
      GridPoint.lon) qlon - 1, hkm⟩)
  rw [hgm2] at hklt
  have hplon_lt : ((g.points_by_row.getD (searchsorted g.lats qlat - 1) []).getD
        (searchsorted ((g.points_by_row.getD (searchsorted g.lats qlat - 1) []).map
          GridPoint.lon) qlon - 1) gpDefault).lon < qlon := by
    rw [List.getD_eq_getElem _ _ hk]
    simpa [List.get_eq_getElem] using hklt
  simp only [mul_zero, sub_zero, add_zero] at hfp
  exact ⟨_, _, _, top, right, heq, hpmem, hprow, rfl, hround, hfp,
    hplat_lt, hqlat_top, hplon_lt, hright_lt⟩

theorem C2_roundtrip_footprint_contains_witness :
    ((∀ q : ℚ, 1 ≤ (fun _ : ℚ => 2) q) ∧
      (∃ la ∈ gEx.lats, la < -45) ∧
      (∃ la ∈ gEx.lats, (-45 : ℚ) < la) ∧
      (-45 : ℚ) ∉ gEx.lats ∧
      (∃ p ∈ gEx.points_by_row.getD (searchsorted gEx.lats (-45) - 1) [],
        p.lon < -90) ∧
      (∃ p ∈ gEx.points_by_row.getD (searchsorted gEx.lats (-45) - 1) [],
        (-90 : ℚ) < p.lon) ∧
      (∀ p ∈ gEx.points_by_row.getD (searchsorted gEx.lats (-45) - 1) [],
        p.lon ≠ -90)) ∧
    (∃ (r c : List Char) (p : GridPoint) (top right : ℚ),
      latlon2rowcol1 gEx (-45) (-90) = some (r, c) ∧
      p ∈ gEx.points ∧ p.row = r ∧ p.col = c ∧
      rowcol2latlon1 gEx r c = some (p.lat, p.lon) ∧
      get_bounded_footprint gEx p 0
        = some [(p.lon, p.lat), (p.lon, top), (right, top), (right, p.lat)] ∧
      p.lat < -45 ∧ (-45 : ℚ) < top ∧ p.lon < -90 ∧ (-90 : ℚ) < right) :=
  ⟨⟨fun _ => by norm_num,
    ⟨-90, by norm_num [gEx], by norm_num⟩,
    ⟨0, by norm_num [gEx], by norm_num⟩,
    by norm_num [gEx],
    ⟨⟨['1', 'D'], ['1', 'L'], 0, 0, -90, -180, 32701⟩,
      by norm_num [gEx, searchsorted, List.countP_cons], by norm_num⟩,
    ⟨⟨['1', 'D'], ['0', 'R'], 0, 1, -90, 0, 32731⟩,
      by norm_num [gEx, searchsorted, List.countP_cons], by norm_num⟩,
    by norm_num [gEx, searchsorted, List.countP_cons, List.forall_mem_cons]⟩,
   C2_roundtrip_footprint_contains (fun _ => by norm_num) mkGrid_gEx (-45) (-90)
     ⟨-90, by norm_num [gEx], by norm_num⟩
     ⟨0, by norm_num [gEx], by norm_num⟩
     (by norm_num [gEx])
     ⟨⟨['1', 'D'], ['1', 'L'], 0, 0, -90, -180, 32701⟩,
       by norm_num [gEx, searchsorted, List.countP_cons], by norm_num⟩
     ⟨⟨['1', 'D'], ['0', 'R'], 0, 1, -90, 0, 32731⟩,
       by norm_num [gEx, searchsorted, List.countP_cons], by norm_num⟩
     (by norm_num [gEx, searchsorted, List.countP_cons, List.forall_mem_cons])⟩
